import Mathlib

/-! Epidemics: the simulation core of `epidemics.c`.

A shallow embedding of the simulation functions of `epidemics.c`
(`tally_state`, `chance`, `init_simulation`, `isinfected`, `advance_state`,
`simulation_step`), of the history kept by `plot_graph`, of the option parsing
(`parse_double`, `parse_int`, `parse_opt`), of the drawing functions as far as
they compute (`draw_ui_rectangle`, `draw_ui_panel`, `draw_ui`) and of the event
loop of `main`, with the properties proved about them.

Conventions of the embedding.

* A C `int` is an `Int` in `[INT_MIN, INT_MAX]`, 32 bits wide.  Every sum,
  difference and product of `int`s in the source is written `int_add`,
  `int_sub`, `int_mul`: the exact result reduced into that range
  (`wrap_int`).  Signed overflow has no defined result in C; the wrapped value
  is what the two's-complement machine computes.  The quotient `int_div` is
  the truncating one and has no result (`none`) for a zero divisor and for
  `INT_MIN / -1`.  Sizes passed to `malloc` and `memset` are computed in
  `size_t` and are exact for the dimensions `parse_int` lets through.
* An `int *` buffer is a `List Int`.  Reading or writing outside the buffer
  has no defined result in C and is `none` here, so every function that
  touches a buffer returns an `Option`.
* `rand()` reads a hidden generator state.  The state is made explicit as `Rng`:
  the stream of the values `rand()` will return and the number of values
  already consumed.
* A C `double` is the rational number it stands for.  A quotient of doubles is
  the exact quotient rounded to the nearest double (`to_double`, 53
  significant bits, ties to even), as IEEE 754 prescribes; an `int` converts
  to a double without rounding.
* `malloc` returns a block of the requested length; its contents are
  indeterminate in C and zero here.  `simulation_step` overwrites every cell
  of the block it allocates.
* A loop `for (int i=0; i<n; i++)` is a monadic fold over `List.range n.toNat`.
* Library calls are taken by their outcome: an option argument is what
  `strtol` and `strtod` return for it, an event is what `al_wait_for_event`
  delivers, and `argp_error`, which ends the program, is `Except.error`.
  A drawing call of the graphics library is recorded by its arguments.
-/

namespace Epidemics

/-! ## Constants and data structures -/

/-- Source: `#define CURED_STATE (-128)`. -/
def CURED_STATE : Int := -128

/-- Source: `#define DEAD_STATE (-256)`. -/
def DEAD_STATE : Int := -256

/-- The constant `RAND_MAX` of `<stdlib.h>`, the largest value `rand()`
returns.  It is not defined in the repository; the value is the one of glibc,
against which the program is built (it includes `<argp.h>`). -/
def RAND_MAX : Nat := 2147483647

/-- The constant `INT_MAX` of `<limits.h>` for a 32-bit `int`. -/
def INT_MAX : Int := 2147483647

/-- The constant `INT_MIN` of `<limits.h>` for a 32-bit `int`. -/
def INT_MIN : Int := -2147483648

/-- The constant `ERANGE` of `<errno.h>` (Linux). -/
def ERANGE : Int := 34

/-- The value `ARGP_ERR_UNKNOWN` of `<argp.h>` (`E2BIG`). -/
def ARGP_ERR_UNKNOWN : Int := 7

/-- The `int` that holds the arithmetic result `v`: `v` itself when
`INT_MIN ≤ v ≤ INT_MAX`, and otherwise the number of that range that differs
from `v` by a multiple of `2^32`, which is `(v + 2^31) mod 2^32 - 2^31` (see
`wrap_int_def`).  The range test is made on the constructors of `Int` so that
the definition evaluates on numerals and stays as it is on variables. -/
def wrap_int (v : Int) : Int :=
  match v with
  | Int.ofNat n =>
    if Nat.ble 2147483648 n then (v + 2147483648) % 4294967296 - 2147483648 else v
  | Int.negSucc n =>
    if Nat.ble 2147483648 n then (v + 2147483648) % 4294967296 - 2147483648 else v

/-- The sum `a + b` of two `int`s. -/
def int_add (a b : Int) : Int :=
  wrap_int (a + b)

/-- The difference `a - b` of two `int`s. -/
def int_sub (a b : Int) : Int :=
  wrap_int (a - b)

/-- The product `a * b` of two `int`s. -/
def int_mul (a b : Int) : Int :=
  wrap_int (a * b)

/-- The quotient `a / b` of two `int`s, truncated toward zero; no result for
`b = 0` and for `INT_MIN / -1`, where the machine instruction faults. -/
def int_div (a b : Int) : Option Int :=
  if b = 0 ∨ (a = INT_MIN ∧ b = -1) then none else some (Int.tdiv a b)

/-- The integer nearest to `q`; the even one of the two when `q` lies halfway
between two integers. -/
def round_half_even (q : ℚ) : Int :=
  if q - (⌊q⌋ : ℚ) < 1 / 2 then ⌊q⌋
  else if q - (⌊q⌋ : ℚ) > 1 / 2 then ⌊q⌋ + 1
  else if ⌊q⌋ % 2 = 0 then ⌊q⌋ else ⌊q⌋ + 1

/-- The `double` nearest to the number `q` (IEEE 754 binary64, round to
nearest, ties to even): `q` rounded to a multiple of `2^(e-52)`, where `2^e`
is the largest power of two not above `|q|`, and `e` is at least -1022.
Results beyond the largest finite double are not modelled. -/
def to_double (q : ℚ) : ℚ :=
  if q = 0 then 0
  else (round_half_even (q / (2 : ℚ) ^ (max (Int.log 2 |q|) (-1022) - 52)) : ℚ)
    * (2 : ℚ) ^ (max (Int.log 2 |q|) (-1022) - 52)

/-- The fields of `struct settings` that the simulation, the history and the
event loop read (colours, font, `simulation_timestep` and `rng_seed` left
out). -/
structure settings where
  simulation_grid_dimension : Int
  max_infected_value : Int
  lethality : ℚ
  infectiousness : ℚ
  immunization_chance : ℚ
  steplimit : Int
  step_at_a_time : Bool

/-- The generator behind `rand()`: `draws k` is the value returned by the
`k`-th call, `pos` the number of calls made so far. -/
structure Rng where
  draws : Nat → Nat
  pos : Nat

/-- Source: one call of `rand()`. -/
def rand (rng : Rng) : Nat × Rng :=
  (rng.draws rng.pos, ⟨rng.draws, rng.pos + 1⟩)

/-- Source: `state[i]` as an rvalue; `none` outside the buffer. -/
def peek (a : List Int) (i : Int) : Option Int :=
  if 0 ≤ i then a[i.toNat]? else none

/-- Source: `state[i] = v`; `none` outside the buffer. -/
def poke (a : List Int) (i : Int) (v : Int) : Option (List Int) :=
  if 0 ≤ i ∧ i.toNat < a.length then some (a.set i.toNat v) else none

/-- Source: `malloc(sizeof(int) * n)`. -/
def malloc (n : Int) : List Int :=
  List.replicate n.toNat 0

/-- The four counters filled in by `tally_state`. -/
structure Tally where
  healthy : Int
  infected : Int
  cured : Int
  dead : Int
  deriving DecidableEq, Repr

/-- One call `al_draw_pixel(x, y, colors[i])`; `colour` is the index `i`. -/
structure Pixel where
  x : Int
  y : Int
  colour : Nat
  deriving DecidableEq, Repr

/-- The `static` variables of `plot_graph`: `len` and the four pointers
`hist[i]`, `none` for `NULL`. -/
structure PlotState where
  len : Int
  hist : List (Option (List Int))
  deriving DecidableEq, Repr

/-! ## Argument parsing of the source -/

/-- What `strtol(str, &next, 0)` leaves behind: the value returned, whether
`next == str` (nothing was consumed), and `errno`. -/
structure strtol_result where
  ret : Int
  next_is_str : Bool
  errno : Int
  deriving DecidableEq, Repr

/-- What `strtod(str, &next)` leaves behind: the value returned, whether
`next == str`, and `errno`. -/
structure strtod_result where
  ret : ℚ
  next_is_str : Bool
  errno : Int
  deriving DecidableEq, Repr

/-- The argument string of an option, through what `strtol` and `strtod` make
of it. -/
structure opt_arg where
  as_long : strtol_result
  as_double : strtod_result
  deriving DecidableEq, Repr

/-- The calls of `argp_error`, by message.  `argp_error` prints the message
and ends the program (`argp_parse` is called with flags 0), so nothing after
it runs. -/
inductive argp_failure
  | failed_to_parse_as_double
  | failed_to_parse_as_integer
  | strerror (errno : Int)
  | invalid_negative_integer
  deriving DecidableEq, Repr

/-- The keys of the options of `parse_opt` that set a simulation field, in the
order of the `switch`: `'s'`, `'l'`, `'i'`, `'m'`, `'c'`, `'d'`, `'t'`, `'p'`,
`'r'`, and `other` for the `default` branch.  The colour keys 40001 to 50003
set fields that `settings` leaves out and are not represented. -/
inductive opt_key
  | manual_step
  | lethality
  | infectiousness
  | immunity
  | immunization
  | dimension
  | timestep
  | step_limit
  | seed
  | other
  deriving DecidableEq, Repr

/-- Source: `parse_double`, on the outcome of its `strtod` call. -/
def parse_double (r : strtod_result) : Except argp_failure ℚ :=
  if r.errno = 0 ∧ r.ret = 0 ∧ r.next_is_str = true then
    Except.error argp_failure.failed_to_parse_as_double
  else if r.errno ≠ 0 then Except.error (argp_failure.strerror r.errno)
  else Except.ok r.ret

/-- Source: `parse_int`, on the outcome of its `strtol` call.  `ret` is the
`long` returned; the value passed on is `(int)ret`, equal to `ret` once the
range test has passed. -/
def parse_int (r : strtol_result) (allow_negative : Bool) : Except argp_failure Int :=
  if r.errno = 0 ∧ r.ret = 0 ∧ r.next_is_str = true then
    Except.error argp_failure.failed_to_parse_as_integer
  else if r.errno ≠ 0 then Except.error (argp_failure.strerror r.errno)
  else if allow_negative = false ∧ r.ret < 0 then
    Except.error argp_failure.invalid_negative_integer
  else if r.ret > INT_MAX ∨ r.ret < INT_MIN then Except.error (argp_failure.strerror ERANGE)
  else Except.ok r.ret

/-- Source: `parse_opt`, for the keys of `opt_key`.  The result is the
`error_t` returned and the settings after the call.  The timestep and the
seed are parsed, and stored in fields that `settings` leaves out. -/
def parse_opt (key : opt_key) (arg : opt_arg) (s : settings) :
    Except argp_failure (Int × settings) :=
  match key with
  | opt_key.manual_step =>
    Except.ok (0, ⟨s.simulation_grid_dimension, s.max_infected_value, s.lethality,
      s.infectiousness, s.immunization_chance, s.steplimit, true⟩)
  | opt_key.lethality =>
    match parse_double arg.as_double with
    | Except.error e => Except.error e
    | Except.ok v => Except.ok (0, ⟨s.simulation_grid_dimension, s.max_infected_value, v,
        s.infectiousness, s.immunization_chance, s.steplimit, s.step_at_a_time⟩)
  | opt_key.infectiousness =>
    match parse_double arg.as_double with
    | Except.error e => Except.error e
    | Except.ok v => Except.ok (0, ⟨s.simulation_grid_dimension, s.max_infected_value,
        s.lethality, v, s.immunization_chance, s.steplimit, s.step_at_a_time⟩)
  | opt_key.immunity =>
    match parse_int arg.as_long false with
    | Except.error e => Except.error e
    | Except.ok v => Except.ok (0, ⟨s.simulation_grid_dimension, v, s.lethality,
        s.infectiousness, s.immunization_chance, s.steplimit, s.step_at_a_time⟩)
  | opt_key.immunization =>
    match parse_double arg.as_double with
    | Except.error e => Except.error e
    | Except.ok v => Except.ok (0, ⟨s.simulation_grid_dimension, s.max_infected_value,
        s.lethality, s.infectiousness, v, s.steplimit, s.step_at_a_time⟩)
  | opt_key.dimension =>
    match parse_int arg.as_long false with
    | Except.error e => Except.error e
    | Except.ok v => Except.ok (0, ⟨v, s.max_infected_value, s.lethality, s.infectiousness,
        s.immunization_chance, s.steplimit, s.step_at_a_time⟩)
  | opt_key.timestep =>
    match parse_double arg.as_double with
    | Except.error e => Except.error e
    | Except.ok _ => Except.ok (0, s)
  | opt_key.step_limit =>
    match parse_int arg.as_long false with
    | Except.error e => Except.error e
    | Except.ok v => Except.ok (0, ⟨s.simulation_grid_dimension, s.max_infected_value,
        s.lethality, s.infectiousness, s.immunization_chance, v, s.step_at_a_time⟩)
  | opt_key.seed =>
    match parse_int arg.as_long true with
    | Except.error e => Except.error e
    | Except.ok _ => Except.ok (0, s)
  | opt_key.other => Except.ok (ARGP_ERR_UNKNOWN, s)

/-- The defaults `parse_args` loads before parsing: lethality 0.01,
infectiousness 0.1, immunity 10, immunization 1.0, dimension 100, step limit
`1<<12`, automatic stepping. -/
def default_settings : settings :=
  ⟨100, 10, 1 / 100, 1 / 10, 1, 4096, false⟩

/-- Source: the body of the inner loop of `tally_state`: the read
`state[j+i*dim]` and the increment of one of the four counters. -/
def tally_cell (state : List Int) (dim : Int) (i j : Nat) (t : Tally) : Option Tally :=
  match peek state (int_add (j : Int) (int_mul (i : Int) dim)) with
  | none => none
  | some c =>
    if c = CURED_STATE then some ⟨t.healthy, t.infected, int_add t.cured 1, t.dead⟩
    else if c = DEAD_STATE then some ⟨t.healthy, t.infected, t.cured, int_add t.dead 1⟩
    else if c = 0 then some ⟨int_add t.healthy 1, t.infected, t.cured, t.dead⟩
    else some ⟨t.healthy, int_add t.infected 1, t.cured, t.dead⟩

/-- Source: `tally_state`.  The loops `for (int i=0; i<dim; i++)` run over
`List.range dim.toNat`. -/
def tally_state (state : List Int) (dim : Int) : Option Tally :=
  (List.range dim.toNat).foldlM
    (fun (t : Tally) (i : Nat) => (List.range dim.toNat).foldlM
      (fun (t : Tally) (j : Nat) => tally_cell state dim i j t) t)
    (⟨0, 0, 0, 0⟩ : Tally)

/-- Source: the expression `(double)rand() / (double)RAND_MAX` of `chance`,
for the value `r` of `rand()`: the quotient of the two doubles, rounded to a
double. -/
def uniform_draw (r : Nat) : ℚ :=
  to_double ((r : ℚ) / (RAND_MAX : ℚ))

/-- Source: `chance`, `(double)rand() / (double)RAND_MAX < probability`. -/
def chance (probability : ℚ) (rng : Rng) : Bool × Rng :=
  (decide (uniform_draw (rand rng).1 < probability), (rand rng).2)

/-! ## Simulation functions of the source -/

/-- Source: `init_simulation`.  `memset` zeroes the first `dim*dim` cells of
the buffer, then the centre cell `state[mid+mid*dim]` is set to 1. -/
def init_simulation (s : settings) (state : List Int) : Option (List Int) :=
  let dim := s.simulation_grid_dimension
  if (dim * dim).toNat ≤ state.length then
    let zeroed := List.replicate (dim * dim).toNat 0 ++ state.drop (dim * dim).toNat
    let mid := Int.tdiv dim 2
    poke zeroed (int_add mid (int_mul mid dim)) 1
  else none

/-- Source: `isinfected`, `state[y+x*size] > 0`. -/
def isinfected (state : List Int) (x y size : Int) : Option Bool :=
  match peek state (int_add y (int_mul x size)) with
  | none => none
  | some v => some (decide (v > 0))

/-- Source: `a && b` where `b` reads memory: `b` is looked at only when `a`
holds. -/
def cAnd (a : Bool) (b : Option Bool) : Option Bool :=
  if a then b else some false

/-- Source: `a || b` where both sides read memory: `b` is looked at only when
`a` is false. -/
def cOr (a b : Option Bool) : Option Bool :=
  match a with
  | none => none
  | some true => some true
  | some false => b

/-- Source: the condition of the `if` of the healthy branch of
`advance_state`. -/
def neighbour_infected (current : List Int) (x y size : Int) : Option Bool :=
  cOr (cAnd (decide (x > 0)) (isinfected current (int_sub x 1) y size))
    (cOr (cAnd (decide (x < int_sub size 1)) (isinfected current (int_add x 1) y size))
      (cOr (cAnd (decide (y > 0)) (isinfected current x (int_sub y 1) size))
        (cAnd (decide (y < int_sub size 1)) (isinfected current x (int_add y 1) size))))

/-- Source: `advance_state`.  Returns the buffer `next` after the write and
the generator after the draws. -/
def advance_state (current next : List Int) (s : settings) (x y size : Int) (rng : Rng) :
    Option (List Int × Rng) :=
  let index := int_add y (int_mul x size)
  match peek current index with
  | none => none
  | some c =>
    if c = CURED_STATE ∨ c = DEAD_STATE then
      match poke next index c with
      | none => none
      | some n1 => some (n1, rng)
    else if c ≠ 0 then
      if (chance s.lethality rng).1 then
        match poke next index DEAD_STATE with
        | none => none
        | some n1 => some (n1, (chance s.lethality rng).2)
      else
        match poke next index (int_add c 1) with
        | none => none
        | some n1 =>
          match peek n1 index with
          | none => none
          | some v =>
            if v > s.max_infected_value then
              if (chance s.immunization_chance (chance s.lethality rng).2).1 then
                match poke n1 index CURED_STATE with
                | none => none
                | some n2 => some (n2, (chance s.immunization_chance (chance s.lethality rng).2).2)
              else
                match poke n1 index s.max_infected_value with
                | none => none
                | some n2 => some (n2, (chance s.immunization_chance (chance s.lethality rng).2).2)
            else some (n1, (chance s.lethality rng).2)
    else
      match neighbour_infected current x y size with
      | none => none
      | some true =>
        if (chance s.infectiousness rng).1 then
          match poke next index 1 with
          | none => none
          | some n1 => some (n1, (chance s.infectiousness rng).2)
        else
          match poke next index 0 with
          | none => none
          | some n1 => some (n1, (chance s.infectiousness rng).2)
      | some false =>
        match poke next index 0 with
        | none => none
        | some n1 => some (n1, rng)

/-- Source: `simulation_step`.  The old grid is read only; the new grid is
returned together with the generator after all draws. -/
def simulation_step (s : settings) (state : List Int) (rng : Rng) : Option (List Int × Rng) :=
  let dim := s.simulation_grid_dimension
  let next_state := malloc (dim * dim)
  (List.range dim.toNat).foldlM
    (fun (acc : List Int × Rng) (i : Nat) => (List.range dim.toNat).foldlM
      (fun (acc : List Int × Rng) (j : Nat) =>
        advance_state state acc.1 s (i : Int) (j : Int) dim acc.2) acc)
    (next_state, rng)

/-! ## The history kept by `plot_graph` -/

/-- The initial values `len = 0`, `hist = {NULL,NULL,NULL,NULL}`. -/
def plot_init : PlotState :=
  ⟨0, [none, none, none, none]⟩

/-- Source: `if (hist[i] == NULL) hist[i] = malloc(sizeof(int) * steplimit)`;
the block `hist[i]` points to afterwards. -/
def hist_block (s : settings) (h : Option (List Int)) : List Int :=
  match h with
  | none => malloc s.steplimit
  | some l => l

/-- Source: `int total = healthy+infected+cured+dead` of `plot_graph`. -/
def plot_total (healthy infected cured dead : Int) : Int :=
  int_add (int_add (int_add healthy infected) cured) dead

/-- Source: the body of `if (j >= len - width)` of `plot_graph`: the pixel
drawn for the entry `v = hist[i][j]`, with
`x = offx + j - MAX(0, len-width)` and `y = offy + height - v*height/total`.
No result when the division faults. -/
def plot_pixel (offx offy width height total len : Int) (i j : Nat) (v : Int) : Option Pixel :=
  match int_div (int_mul v height) total with
  | none => none
  | some q =>
    some ⟨int_sub (int_add offx (j : Int)) (max 0 (int_sub len width)),
      int_sub (int_add offy height) q, i⟩

/-- Source: the loop `for (int j=0; j<len; j++)` of `plot_graph`, for the
series `i` stored in the block `h`. -/
def plot_series (offx offy width height total len : Int) (i : Nat) (h : List Int) :
    Option (List Pixel) :=
  (List.range len.toNat).foldlM
    (fun (px : List Pixel) (j : Nat) =>
      if (j : Int) ≥ int_sub len width then
        match peek h (j : Int) with
        | none => none
        | some v =>
          match plot_pixel offx offy width height total len i j v with
          | none => none
          | some p => some (px ++ [p])
      else some px)
    []

/-- Source: `plot_graph`, on the explicit state of its `static` variables.
Returns the new state and the pixels drawn, in drawing order. -/
def plot_graph (offx offy width height healthy infected cured dead : Int) (s : settings)
    (step : Bool) (st : PlotState) : Option (PlotState × List Pixel) :=
  let curr := [healthy, infected, cured, dead]
  let total := plot_total healthy infected cured dead
  let grow := decide (st.len < s.steplimit) && step
  let len := if grow then int_add st.len 1 else st.len
  match (List.range 4).foldlM
      (fun (acc : List (Option (List Int)) × List Pixel) (i : Nat) =>
        match acc.1[i]?, curr[i]? with
        | some h, some c =>
          match (if grow then poke (hist_block s h) (int_sub len 1) c
              else some (hist_block s h)) with
          | none => none
          | some h2 =>
            match plot_series offx offy width height total len i h2 with
            | none => none
            | some px => some (acc.1.set i (some h2), acc.2 ++ px)
        | _, _ => none)
      (st.hist, []) with
  | none => none
  | some (hist, px) => some (⟨len, hist⟩, px)

/-! ## The start and the event loop of `main` -/

/-- The grid and generator after `n` successive calls
`simulation_state = simulation_step(&settings, simulation_state)`. -/
def run_steps (s : settings) : Nat → List Int → Rng → Option (List Int × Rng)
  | 0, state, rng => some (state, rng)
  | n + 1, state, rng =>
    match simulation_step s state rng with
    | none => none
    | some (state1, rng1) => run_steps s n state1 rng1

/-- The state of `plot_graph` after one recording call (`step = true`) per
tally of the list, in order, with a fixed plot geometry. -/
def record_all (offx offy width height : Int) (s : settings) :
    List Tally → PlotState → Option PlotState
  | [], st => some st
  | t :: ts, st =>
    match plot_graph offx offy width height t.healthy t.infected t.cured t.dead s true st with
    | none => none
    | some (st1, _) => record_all offx offy width height s ts st1

/-! ## Vocabulary of the theorems -/

/-- The generator after `k` further calls of `rand()`. -/
def Rng.skip (rng : Rng) (k : Nat) : Rng :=
  ⟨rng.draws, rng.pos + k⟩

/-- The value `advance_state` leaves in `next[index]`, and the generator after
its draws: `advance_state` with the writes to `next` taken out (see
`advance_state_eq_next_value`). -/
def next_value (current : List Int) (s : settings) (x y size : Int) (rng : Rng) :
    Option (Int × Rng) :=
  match peek current (int_add y (int_mul x size)) with
  | none => none
  | some c =>
    if c = CURED_STATE ∨ c = DEAD_STATE then some (c, rng)
    else if c ≠ 0 then
      if (chance s.lethality rng).1 then some (DEAD_STATE, (chance s.lethality rng).2)
      else if int_add c 1 > s.max_infected_value then
        if (chance s.immunization_chance (chance s.lethality rng).2).1 then
          some (CURED_STATE, (chance s.immunization_chance (chance s.lethality rng).2).2)
        else
          some (s.max_infected_value, (chance s.immunization_chance (chance s.lethality rng).2).2)
      else some (int_add c 1, (chance s.lethality rng).2)
    else
      match neighbour_infected current x y size with
      | none => none
      | some true =>
        if (chance s.infectiousness rng).1 then some (1, (chance s.infectiousness rng).2)
        else some (0, (chance s.infectiousness rng).2)
      | some false => some (0, rng)

/-- The generator state just before `simulation_step` treats the `k`-th cell
in row-major order (cell `(k / dim, k % dim)`). -/
def rng_before (state : List Int) (s : settings) (rng : Rng) : Nat → Rng
  | 0 => rng
  | k + 1 =>
    match next_value state s ((k / s.simulation_grid_dimension.toNat : Nat) : Int)
        ((k % s.simulation_grid_dimension.toNat : Nat) : Int) s.simulation_grid_dimension
        (rng_before state s rng k) with
    | none => rng_before state s rng k
    | some p => p.2

/-- Some cell among `(x-1,y)`, `(x+1,y)`, `(x,y-1)`, `(x,y+1)` with both
coordinates in `[0, size)` holds a value greater than 0. -/
def has_infected_neighbour (current : List Int) (x y size : Int) : Prop :=
  ∃ a b v, ((a, b) = (x - 1, y) ∨ (a, b) = (x + 1, y) ∨ (a, b) = (x, y - 1) ∨ (a, b) = (x, y + 1)) ∧
    0 ≤ a ∧ a < size ∧ 0 ≤ b ∧ b < size ∧ peek current (b + a * size) = some v ∧ v > 0

/-- The indices of `current` that `advance_state` can read for the cell
`(x, y)`, as the source computes them: the index of the cell itself and, for
each neighbour whose guard (`x > 0`, `x < size-1`, `y > 0`, `y < size-1`)
holds, the index `isinfected` reads.  The cell's index is also the only index
of `next` that is written. -/
def touched_indices (x y size : Int) : List Int :=
  [int_add y (int_mul x size)] ++
    (if x > 0 then [int_add y (int_mul (int_sub x 1) size)] else []) ++
    (if x < int_sub size 1 then [int_add y (int_mul (int_add x 1) size)] else []) ++
    (if y > 0 then [int_add (int_sub y 1) (int_mul x size)] else []) ++
    (if y < int_sub size 1 then [int_add (int_add y 1) (int_mul x size)] else [])

/-- What is known of the pair (buffer, generator) of `simulation_step` once the
first `m` cells in row-major order have been written. -/
def step_inv (s : settings) (state : List Int) (rng : Rng) (m : Nat) (acc : List Int × Rng) :
    Prop :=
  acc.1.length = state.length ∧ acc.2 = rng_before state s rng m ∧
    ∀ k, k < m → ∃ v, acc.1[k]? = some v ∧
      next_value state s ((k / s.simulation_grid_dimension.toNat : Nat) : Int)
        ((k % s.simulation_grid_dimension.toNat : Nat) : Int) s.simulation_grid_dimension
        (rng_before state s rng k) = some (v, rng_before state s rng (k + 1))

/-- The number of the four classes Healthy (0), Infected (`1 ≤ c ≤ m`), Cured
and Dead that the cell value `c` belongs to. -/
def state_classes (m c : Int) : Nat :=
  (if c = 0 then 1 else 0) + (if 1 ≤ c ∧ c ≤ m then 1 else 0) +
    (if c = CURED_STATE then 1 else 0) + (if c = DEAD_STATE then 1 else 0)

/-- The cell value `c` is in exactly one of the four classes. -/
def valid_cell (m c : Int) : Prop :=
  state_classes m c = 1

instance (m c : Int) : Decidable (valid_cell m c) := by
  unfold valid_cell; infer_instance

/-- Every cell of the grid is in exactly one of the four classes. -/
def valid_grid (m : Int) (g : List Int) : Prop :=
  ∀ c ∈ g, valid_cell m c

instance (m : Int) (g : List Int) : Decidable (valid_grid m g) := by
  unfold valid_grid; infer_instance

/-- The index of the cell `state[mid+mid*dim]` seeded by `init_simulation`. -/
def centre (dim : Int) : Nat :=
  (Int.tdiv dim 2 + Int.tdiv dim 2 * dim).toNat

/-- The four counts of a list of cells, by the classification of
`tally_state`: zero, anything else that is not a sentinel, Cured, Dead. -/
def tally_of (l : List Int) : Tally :=
  ⟨(l.countP (fun c => decide (c = 0)) : Nat),
   (l.countP (fun c => decide (c ≠ CURED_STATE ∧ c ≠ DEAD_STATE ∧ c ≠ 0)) : Nat),
   (l.countP (fun c => decide (c = CURED_STATE)) : Nat),
   (l.countP (fun c => decide (c = DEAD_STATE)) : Nat)⟩

/-- The state of `plot_graph` is well formed: `0 ≤ len ≤ steplimit`, four
pointers, and every allocated block has `steplimit` cells. -/
def plot_wf (s : settings) (st : PlotState) : Prop :=
  0 ≤ st.len ∧ st.len ≤ s.steplimit ∧ st.hist.length = 4 ∧
    ∀ l, some l ∈ st.hist → l.length = s.steplimit.toNat

instance (s : settings) (st : PlotState) : Decidable (plot_wf s st) := by
  unfold plot_wf
  have : Decidable (∀ l, some l ∈ st.hist → l.length = s.steplimit.toNat) :=
    decidable_of_iff (∀ h ∈ st.hist, ∀ l, h = some l → l.length = s.steplimit.toNat)
      ⟨fun H l hl => H (some l) hl l rfl, fun H h hh l hl => H l (hl ▸ hh)⟩
  infer_instance

/-- The block of series `i` after a call of `plot_graph`: allocated if it was
not, and with cell `len` (the old length) set to `c` when the call grows the
history. -/
def new_block (s : settings) (st : PlotState) (grow : Bool) (h : Option (List Int)) (c : Int) :
    List Int :=
  if grow then (hist_block s h).set st.len.toNat c else hist_block s h

/-- Settings used to instantiate the theorems: a 3×3 grid with the
probabilities of the end-to-end scenario. -/
def demo_settings : settings :=
  ⟨3, 10, 0, 1, 0, 5, false⟩

/-- Settings with `infectiousness = 0` on a 3×3 grid. -/
def sterile_settings : settings :=
  ⟨3, 10, 1 / 100, 0, 1, 4096, false⟩

/-- Settings with `max_infected_value = 0` on a 1×1 grid, lethality and
immunization chance 0. -/
def immunity_zero_settings : settings :=
  ⟨1, 0, 0, 0, 0, 4096, false⟩

/-- Settings with `max_infected_value = INT_MAX` on a 1×1 grid, all three
probabilities 0. -/
def int_max_settings : settings :=
  ⟨1, 2147483647, 0, 0, 0, 4096, false⟩

/-- Settings with the grid dimension 46341, the least whose square exceeds
`INT_MAX`; all three probabilities 0. -/
def large_settings : settings :=
  ⟨46341, 10, 0, 0, 0, 5, false⟩

/-- A grid of `46341 * 46341` cells, all holding `c`. -/
def large_grid (c : Int) : List Int :=
  List.replicate (46341 * 46341) c

/-- A generator whose every draw is 0. -/
def zero_rng : Rng :=
  ⟨fun _ => 0, 0⟩

/-- A generator whose every draw is `RAND_MAX`. -/
def max_rng : Rng :=
  ⟨fun _ => RAND_MAX, 0⟩

/-- Ten tallies of a 3×3 grid, the `k`-th with `k` infected cells. -/
def demo_tallies : List Tally :=
  (List.range 10).map (fun k => ⟨9 - (k : Int), (k : Int), 0, 0⟩)

/-- The argument `"0"`. -/
def arg_0 : opt_arg := ⟨⟨0, false, 0⟩, ⟨0, false, 0⟩⟩

/-- The argument `"-4"`. -/
def arg_minus_4 : opt_arg := ⟨⟨-4, false, 0⟩, ⟨-4, false, 0⟩⟩

/-! ## Theorems -/

theorem wrap_int_def (v : Int) :
    wrap_int v = (v + 2147483648) % 4294967296 - 2147483648 := by
  cases v with
  | ofNat n =>
    simp only [wrap_int]
    split_ifs with h
    · rfl
    · rw [Nat.ble_eq] at h
      have hn : (Int.ofNat n) = (n : Int) := rfl
      rw [hn]
      omega
  | negSucc n =>
    simp only [wrap_int]
    split_ifs with h
    · rfl
    · rw [Nat.ble_eq] at h
      rw [Int.negSucc_eq]
      omega

theorem wrap_int_eq (v : Int) (h1 : INT_MIN ≤ v) (h2 : v ≤ INT_MAX) : wrap_int v = v := by
  rw [wrap_int_def]
  unfold INT_MIN at h1
  unfold INT_MAX at h2
  omega

theorem int_add_eq (a b : Int) (h1 : INT_MIN ≤ a + b) (h2 : a + b ≤ INT_MAX) :
    int_add a b = a + b :=
  wrap_int_eq _ h1 h2

theorem int_sub_eq (a b : Int) (h1 : INT_MIN ≤ a - b) (h2 : a - b ≤ INT_MAX) :
    int_sub a b = a - b :=
  wrap_int_eq _ h1 h2

theorem int_mul_eq (a b : Int) (h1 : INT_MIN ≤ a * b) (h2 : a * b ≤ INT_MAX) :
    int_mul a b = a * b :=
  wrap_int_eq _ h1 h2

theorem wrap_int_range (v : Int) : INT_MIN ≤ wrap_int v ∧ wrap_int v ≤ INT_MAX := by
  rw [wrap_int_def]
  unfold INT_MIN INT_MAX
  omega

theorem int_div_pos (a b : Int) (hb : 0 < b) : int_div a b = some (Int.tdiv a b) := by
  unfold int_div
  rw [if_neg]
  rintro (h | ⟨_, h⟩) <;> omega

theorem index_bounds (x y size : Int) (hx0 : 0 ≤ x) (hx : x < size) (hy0 : 0 ≤ y)
    (hy : y < size) : 0 ≤ y + x * size ∧ y + x * size < size * size := by
  constructor
  · nlinarith
  · nlinarith

theorem side_le_int_max (size : Int) (h1 : 1 ≤ size) (hb : size * size ≤ INT_MAX) :
    size ≤ INT_MAX := by
  nlinarith

theorem index_exact (x y size : Int) (hx0 : 0 ≤ x) (hx : x < size) (hy0 : 0 ≤ y)
    (hy : y < size) (hb : size * size ≤ INT_MAX) :
    int_add y (int_mul x size) = y + x * size := by
  obtain ⟨h0, h1⟩ := index_bounds x y size hx0 hx hy0 hy
  have hxs : 0 ≤ x * size := mul_nonneg hx0 (by omega)
  have hmin : INT_MIN ≤ 0 := by decide
  rw [int_mul_eq x size (le_trans hmin hxs) (by omega),
    int_add_eq y (x * size) (le_trans hmin h0) (by omega)]

theorem round_half_even_le (q : ℚ) : (round_half_even q : ℚ) ≤ q + 1 / 2 := by
  have hfl : ((⌊q⌋ : Int) : ℚ) ≤ q := Int.floor_le q
  unfold round_half_even
  split_ifs with h1 h2 h3
  · linarith
  · push_cast; linarith
  · linarith
  · push_cast; linarith

theorem round_half_even_nonneg (q : ℚ) (h : 0 ≤ q) : 0 ≤ round_half_even q := by
  have hfl : 0 ≤ ⌊q⌋ := Int.floor_nonneg.mpr h
  unfold round_half_even
  split_ifs <;> omega

theorem to_double_nonneg (q : ℚ) (h : 0 ≤ q) : 0 ≤ to_double q := by
  unfold to_double
  split_ifs with h0
  · exact le_refl _
  · apply mul_nonneg
    · exact_mod_cast round_half_even_nonneg _ (div_nonneg h (zpow_nonneg (by norm_num) _))
    · exact zpow_nonneg (by norm_num) _

theorem to_double_one : to_double 1 = 1 := by
  unfold to_double
  rw [if_neg one_ne_zero, abs_one, Int.log_one_right]
  have he : max (0 : Int) (-1022) - 52 = -52 := by decide
  rw [he]
  have hq : (1 : ℚ) / (2 : ℚ) ^ (-52 : Int) = ((4503599627370496 : Int) : ℚ) := by norm_num
  have hr : round_half_even (((4503599627370496 : Int) : ℚ)) = 4503599627370496 := by
    unfold round_half_even
    rw [Int.floor_intCast]
    norm_num
  rw [hq, hr]
  norm_num

theorem to_double_lt_one (q : ℚ) (h0 : 0 ≤ q) (h1 : q ≤ 1 - 1 / 2147483648) :
    to_double q < 1 := by
  unfold to_double
  split_ifs with hz
  · norm_num
  · have hpos : 0 < q := lt_of_le_of_ne h0 (Ne.symm hz)
    rw [abs_of_nonneg h0]
    have hlog : Int.log 2 q < 0 := by
      by_contra hge
      push_neg at hge
      have h2 : ((2 : Nat) : ℚ) ^ Int.log 2 q ≤ q := Int.zpow_log_le_self (by norm_num) hpos
      have h3 : (1 : ℚ) ≤ ((2 : Nat) : ℚ) ^ Int.log 2 q := one_le_zpow₀ (by norm_num) hge
      linarith
    have he : max (Int.log 2 q) (-1022) - 52 ≤ -53 := by omega
    have hu0 : (0 : ℚ) < (2 : ℚ) ^ (max (Int.log 2 q) (-1022) - 52) := zpow_pos (by norm_num) _
    have hu1 : (2 : ℚ) ^ (max (Int.log 2 q) (-1022) - 52) ≤ (2 : ℚ) ^ (-53 : Int) :=
      zpow_le_zpow_right₀ (by norm_num) he
    have hu2 : (2 : ℚ) ^ (-53 : Int) = 1 / 9007199254740992 := by norm_num
    have hr := round_half_even_le (q / (2 : ℚ) ^ (max (Int.log 2 q) (-1022) - 52))
    have hmul := mul_le_mul_of_nonneg_right hr (le_of_lt hu0)
    have hcancel : (q / (2 : ℚ) ^ (max (Int.log 2 q) (-1022) - 52) + 1 / 2)
        * (2 : ℚ) ^ (max (Int.log 2 q) (-1022) - 52)
        = q + (2 : ℚ) ^ (max (Int.log 2 q) (-1022) - 52) / 2 := by
      field_simp
      ring
    rw [hcancel] at hmul
    rw [hu2] at hu1
    linarith

theorem uniform_draw_nonneg (r : Nat) : 0 ≤ uniform_draw r := by
  unfold uniform_draw
  exact to_double_nonneg _ (by positivity)

theorem uniform_draw_lt_one (r : Nat) (h : r < RAND_MAX) : uniform_draw r < 1 := by
  unfold uniform_draw
  apply to_double_lt_one _ (by positivity)
  have hle : (r : ℚ) ≤ 2147483646 := by
    have : r ≤ 2147483646 := by unfold RAND_MAX at h; omega
    exact_mod_cast this
  have hR : ((RAND_MAX : Nat) : ℚ) = 2147483647 := by norm_num [RAND_MAX]
  rw [hR, div_le_iff₀ (by norm_num)]
  linarith

theorem uniform_draw_max : uniform_draw RAND_MAX = 1 := by
  unfold uniform_draw
  have hR : ((RAND_MAX : Nat) : ℚ) ≠ 0 := by norm_num [RAND_MAX]
  rw [div_self hR]
  exact to_double_one

theorem chance_fst (p : ℚ) (rng : Rng) :
    (chance p rng).1 = decide (uniform_draw (rng.draws rng.pos) < p) := rfl

theorem chance_snd (p : ℚ) (rng : Rng) : (chance p rng).2 = rng.skip 1 := rfl

theorem skip_skip (rng : Rng) (a b : Nat) : (rng.skip a).skip b = rng.skip (a + b) := by
  simp [Rng.skip, Nat.add_assoc]

theorem chance_zero (rng : Rng) : chance 0 rng = (false, rng.skip 1) := by
  apply Prod.ext
  · rw [chance_fst]
    exact decide_eq_false (not_lt.mpr (uniform_draw_nonneg _))
  · rfl

theorem chance_one (rng : Rng) (h : rng.draws rng.pos < RAND_MAX) :
    chance 1 rng = (true, rng.skip 1) := by
  apply Prod.ext
  · rw [chance_fst]
    exact decide_eq_true (uniform_draw_lt_one _ h)
  · rfl

theorem chance_one_max (rng : Rng) (h : rng.draws rng.pos = RAND_MAX) :
    chance 1 rng = (false, rng.skip 1) := by
  apply Prod.ext
  · rw [chance_fst, h, uniform_draw_max]
    exact decide_eq_false (lt_irrefl 1)
  · rfl

theorem peek_eq_some_iff (a : List Int) (i : Int) (v : Int) :
    peek a i = some v ↔ 0 ≤ i ∧ a[i.toNat]? = some v := by
  unfold peek
  by_cases h : 0 ≤ i <;> simp [h]

theorem peek_neg (a : List Int) (i : Int) (h : i < 0) : peek a i = none := by
  unfold peek
  rw [if_neg (by omega)]

theorem peek_natCast (a : List Int) (k : Nat) : peek a (k : Int) = a[k]? := by
  simp [peek]

theorem poke_natCast (a : List Int) (k : Nat) (v : Int) (h : k < a.length) :
    poke a (k : Int) v = some (a.set k v) := by
  simp [poke, h]

theorem foldlM_range_inv {α : Type} (body : α → Nat → Option α) (P : Nat → α → Prop) (n : Nat)
    (init : α) (h0 : P 0 init)
    (hstep : ∀ k a, k < n → P k a → ∃ a', body a k = some a' ∧ P (k + 1) a') :
    ∃ a', (List.range n).foldlM body init = some a' ∧ P n a' := by
  induction n with
  | zero => exact ⟨init, rfl, h0⟩
  | succ m ih =>
    obtain ⟨a, ha, hP⟩ := ih (fun k a hk hp => hstep k a (Nat.lt_succ_of_lt hk) hp)
    obtain ⟨a', ha', hP'⟩ := hstep m a (Nat.lt_succ_self m) hP
    refine ⟨a', ?_, hP'⟩
    rw [List.range_succ, List.foldlM_append, ha]
    simp [ha']

theorem foldlM_range_none {α : Type} (body : α → Nat → Option α) (n k : Nat) (hk : k < n)
    (hnone : ∀ a, body a k = none) (init : α) :
    (List.range n).foldlM body init = none := by
  induction n with
  | zero => omega
  | succ m ih =>
    rw [List.range_succ, List.foldlM_append]
    rcases Nat.lt_succ_iff_lt_or_eq.mp hk with h | h
    · rw [ih h]
      rfl
    · subst h
      rcases (List.range k).foldlM body init with _ | a
      · rfl
      · simp [hnone a]

theorem toNat_mul_self (dim : Int) (hdim : 0 ≤ dim) :
    (dim * dim).toNat = dim.toNat * dim.toNat := by
  obtain ⟨d, rfl⟩ := Int.eq_ofNat_of_zero_le hdim
  rw [← Int.natCast_mul, Int.toNat_natCast, Int.toNat_natCast]

theorem cell_index_lt (d i j : Nat) (hi : i < d) (hj : j < d) : j + i * d < d * d := by
  nlinarith

theorem index_exact_nat (i j d : Nat) (hi : i < d) (hj : j < d)
    (hb : (d : Int) * (d : Int) ≤ INT_MAX) :
    int_add (j : Int) (int_mul (i : Int) (d : Int)) = ((j + i * d : Nat) : Int) := by
  rw [index_exact (i : Int) (j : Int) (d : Int) (Int.natCast_nonneg i) (by exact_mod_cast hi)
    (Int.natCast_nonneg j) (by exact_mod_cast hj) hb]
  push_cast
  ring

theorem advance_state_eq_next_value (current next : List Int) (s : settings) (x y size : Int)
    (rng : Rng) (h0 : 0 ≤ int_add y (int_mul x size))
    (hlt : (int_add y (int_mul x size)).toNat < next.length) :
    advance_state current next s x y size rng =
      (next_value current s x y size rng).map
        (fun p => (next.set (int_add y (int_mul x size)).toNat p.1, p.2)) := by
  generalize hidx : int_add y (int_mul x size) = index at *
  have hpoke : ∀ (a : List Int) (v : Int), index.toNat < a.length →
      poke a index v = some (a.set index.toNat v) := by
    intro a v h
    simp [poke, h0, h]
  have hpeek : ∀ (a : List Int) (v : Int), index.toNat < a.length →
      peek (a.set index.toNat v) index = some v := by
    intro a v h
    simp [peek, h0, h]
  rcases hc : peek current index with _ | c
  · simp only [advance_state, next_value, hidx, hc, Option.map_none']
  · simp only [advance_state, next_value, hidx, hc, hpoke next _ hlt, hpeek next _ hlt,
      hpoke (next.set _ _) _ (by simpa using hlt), List.set_set]
    by_cases h1 : c = CURED_STATE ∨ c = DEAD_STATE
    · rw [if_pos h1, if_pos h1]; rfl
    · rw [if_neg h1, if_neg h1]
      by_cases h2 : c ≠ 0
      · rw [if_pos h2, if_pos h2]
        by_cases h3 : (chance s.lethality rng).1 = true
        · rw [if_pos h3, if_pos h3]; rfl
        · rw [if_neg h3, if_neg h3]
          by_cases h4 : int_add c 1 > s.max_infected_value
          · rw [if_pos h4, if_pos h4]
            by_cases h5 : (chance s.immunization_chance (chance s.lethality rng).2).1 = true
            · rw [if_pos h5, if_pos h5]; rfl
            · rw [if_neg h5, if_neg h5]; rfl
          · rw [if_neg h4, if_neg h4]; rfl
      · rw [if_neg h2, if_neg h2]
        rcases hn : neighbour_infected current x y size with _ | b
        · rfl
        · cases b
          · rfl
          · by_cases h6 : (chance s.infectiousness rng).1 = true
            · simp only [if_pos h6]; rfl
            · simp only [if_neg h6]; rfl

theorem advance_state_in_range (current next : List Int) (s : settings) (x y size : Int)
    (rng : Rng) (hx0 : 0 ≤ x) (hx : x < size) (hy0 : 0 ≤ y) (hy : y < size)
    (hb : size * size ≤ INT_MAX) (hnl : next.length = (size * size).toNat) :
    advance_state current next s x y size rng =
      (next_value current s x y size rng).map
        (fun p => (next.set (y + x * size).toNat p.1, p.2)) := by
  obtain ⟨h0, h1⟩ := index_bounds x y size hx0 hx hy0 hy
  have hidx := index_exact x y size hx0 hx hy0 hy hb
  have h := advance_state_eq_next_value current next s x y size rng (by rw [hidx]; exact h0)
    (by rw [hidx, hnl]; omega)
  rw [hidx] at h
  exact h

theorem peek_in_range (a : List Int) (x y size : Int) (hlen : a.length = (size * size).toNat)
    (hx0 : 0 ≤ x) (hx : x < size) (hy0 : 0 ≤ y) (hy : y < size) :
    ∃ c, peek a (y + x * size) = some c ∧ a[(y + x * size).toNat]? = some c := by
  obtain ⟨h0, h1⟩ := index_bounds x y size hx0 hx hy0 hy
  have hlt : (y + x * size).toNat < a.length := by
    rw [hlen]; omega
  refine ⟨a[(y + x * size).toNat], ?_, ?_⟩
  · simp [peek, h0, hlt]
  · simp [hlt]

theorem isinfected_in_range (a : List Int) (x y size : Int)
    (hlen : a.length = (size * size).toNat) (hb : size * size ≤ INT_MAX)
    (hx0 : 0 ≤ x) (hx : x < size) (hy0 : 0 ≤ y) (hy : y < size) :
    ∃ c, peek a (y + x * size) = some c ∧ isinfected a x y size = some (decide (c > 0)) := by
  obtain ⟨c, hc, _⟩ := peek_in_range a x y size hlen hx0 hx hy0 hy
  exact ⟨c, hc, by simp [isinfected, index_exact x y size hx0 hx hy0 hy hb, hc]⟩

theorem cOr_some (a b : Bool) : cOr (some a) (some b) = some (a || b) := by
  cases a <;> rfl

theorem cAnd_isinfected (a : List Int) (g : Prop) [Decidable g] (x y size : Int)
    (hlen : a.length = (size * size).toNat) (hb : size * size ≤ INT_MAX)
    (hin : g → 0 ≤ x ∧ x < size ∧ 0 ≤ y ∧ y < size) :
    ∃ b, cAnd (decide g) (isinfected a x y size) = some b ∧
      (b = true ↔ g ∧ ∃ v, peek a (y + x * size) = some v ∧ v > 0) := by
  by_cases hg : g
  · obtain ⟨hx0, hx, hy0, hy⟩ := hin hg
    obtain ⟨c, hc, hi⟩ := isinfected_in_range a x y size hlen hb hx0 hx hy0 hy
    refine ⟨decide (c > 0), by simp [cAnd, hg, hi], ?_⟩
    simp [hg, hc]
  · exact ⟨false, by simp [cAnd, hg], by simp [hg]⟩

theorem neighbour_exact (x y size : Int) (hx0 : 0 ≤ x) (hx : x < size) (hy0 : 0 ≤ y)
    (hy : y < size) (hb : size * size ≤ INT_MAX) :
    int_sub x 1 = x - 1 ∧ int_add x 1 = x + 1 ∧ int_sub y 1 = y - 1 ∧ int_add y 1 = y + 1 ∧
      int_sub size 1 = size - 1 := by
  have hs := side_le_int_max size (by omega) hb
  have hmin : INT_MIN = -2147483648 := rfl
  have hmax : INT_MAX = 2147483647 := rfl
  refine ⟨int_sub_eq _ _ ?_ ?_, int_add_eq _ _ ?_ ?_, int_sub_eq _ _ ?_ ?_, int_add_eq _ _ ?_ ?_,
    int_sub_eq _ _ ?_ ?_⟩ <;> omega

theorem neighbour_infected_in_range (current : List Int) (x y size : Int)
    (hlen : current.length = (size * size).toNat) (hb : size * size ≤ INT_MAX)
    (hx0 : 0 ≤ x) (hx : x < size) (hy0 : 0 ≤ y) (hy : y < size) :
    ∃ b, neighbour_infected current x y size = some b ∧
      (b = true ↔ has_infected_neighbour current x y size) := by
  obtain ⟨hxm, hxp, hym, hyp, hsm⟩ := neighbour_exact x y size hx0 hx hy0 hy hb
  obtain ⟨b1, e1, h1⟩ := cAnd_isinfected current (x > 0) (x - 1) y size hlen hb
    (fun h => ⟨by omega, by omega, hy0, hy⟩)
  obtain ⟨b2, e2, h2⟩ := cAnd_isinfected current (x < size - 1) (x + 1) y size hlen hb
    (fun h => ⟨by omega, by omega, hy0, hy⟩)
  obtain ⟨b3, e3, h3⟩ := cAnd_isinfected current (y > 0) x (y - 1) size hlen hb
    (fun h => ⟨hx0, hx, by omega, by omega⟩)
  obtain ⟨b4, e4, h4⟩ := cAnd_isinfected current (y < size - 1) x (y + 1) size hlen hb
    (fun h => ⟨hx0, hx, by omega, by omega⟩)
  refine ⟨b1 || (b2 || (b3 || b4)), ?_, ?_⟩
  · simp only [neighbour_infected, hxm, hxp, hym, hyp, hsm, e1, e2, e3, e4, cOr_some]
  · simp only [Bool.or_eq_true, h1, h2, h3, h4, has_infected_neighbour]
    constructor
    · rintro (⟨hg, v, hv, hpos⟩ | ⟨hg, v, hv, hpos⟩ | ⟨hg, v, hv, hpos⟩ | ⟨hg, v, hv, hpos⟩)
      · exact ⟨x - 1, y, v, Or.inl rfl, by omega, by omega, hy0, hy, hv, hpos⟩
      · exact ⟨x + 1, y, v, Or.inr (Or.inl rfl), by omega, by omega, hy0, hy, hv, hpos⟩
      · exact ⟨x, y - 1, v, Or.inr (Or.inr (Or.inl rfl)), hx0, hx, by omega, by omega, hv, hpos⟩
      · exact ⟨x, y + 1, v, Or.inr (Or.inr (Or.inr rfl)), hx0, hx, by omega, by omega, hv, hpos⟩
    · rintro ⟨a, b, v, hab, ha0, ha, hb0, hb', hv, hpos⟩
      rcases hab with h | h | h | h <;> (obtain ⟨rfl, rfl⟩ := Prod.mk.inj h)
      · exact Or.inl ⟨by omega, v, hv, hpos⟩
      · exact Or.inr (Or.inl ⟨by omega, v, hv, hpos⟩)
      · exact Or.inr (Or.inr (Or.inl ⟨by omega, v, hv, hpos⟩))
      · exact Or.inr (Or.inr (Or.inr ⟨by omega, v, hv, hpos⟩))

theorem next_value_isSome (current : List Int) (s : settings) (x y size : Int) (rng : Rng)
    (hlen : current.length = (size * size).toNat) (hb : size * size ≤ INT_MAX)
    (hx0 : 0 ≤ x) (hx : x < size) (hy0 : 0 ≤ y) (hy : y < size) :
    ∃ p, next_value current s x y size rng = some p := by
  obtain ⟨c, hc, _⟩ := peek_in_range current x y size hlen hx0 hx hy0 hy
  obtain ⟨b, hb', _⟩ := neighbour_infected_in_range current x y size hlen hb hx0 hx hy0 hy
  simp only [next_value, index_exact x y size hx0 hx hy0 hy hb, hc, hb']
  split_ifs <;> first | exact ⟨_, rfl⟩ | (cases b <;> simp)

theorem peek_cell (a : List Int) (i j d : Nat) (hi : i < d) (hj : j < d)
    (hb : (d : Int) * (d : Int) ≤ INT_MAX) :
    peek a (int_add (j : Int) (int_mul (i : Int) (d : Int))) = a[j + i * d]? := by
  rw [index_exact_nat i j d hi hj hb]
  exact peek_natCast a _

theorem step_inv_cell (s : settings) (state : List Int) (rng : Rng)
    (hdim : 0 ≤ s.simulation_grid_dimension)
    (hb : s.simulation_grid_dimension * s.simulation_grid_dimension ≤ INT_MAX)
    (hlen : state.length = (s.simulation_grid_dimension * s.simulation_grid_dimension).toNat)
    (i j : Nat) (hi : i < s.simulation_grid_dimension.toNat)
    (hj : j < s.simulation_grid_dimension.toNat) (acc : List Int × Rng)
    (hinv : step_inv s state rng (j + i * s.simulation_grid_dimension.toNat) acc) :
    ∃ acc', advance_state state acc.1 s (i : Int) (j : Int) s.simulation_grid_dimension acc.2
        = some acc' ∧
      step_inv s state rng (j + 1 + i * s.simulation_grid_dimension.toNat) acc' := by
  obtain ⟨d, hd⟩ := Int.eq_ofNat_of_zero_le hdim
  unfold step_inv at hinv ⊢
  rw [hd] at hlen hi hj hinv hb ⊢
  simp only [Int.toNat_natCast] at hi hj hinv ⊢
  rw [toNat_mul_self _ (Int.natCast_nonneg d), Int.toNat_natCast] at hlen
  obtain ⟨hl, hr, hcells⟩ := hinv
  have hk : j + i * d < d * d := cell_index_lt d i j hi hj
  have hidx : (j : Int) + (i : Int) * (d : Int) = ((j + i * d : Nat) : Int) := by push_cast; ring
  have hdiv : (j + i * d) / d = i := by
    rw [Nat.add_mul_div_right _ _ (by omega), Nat.div_eq_of_lt hj, Nat.zero_add]
  have hmod : (j + i * d) % d = j := by
    rw [Nat.add_mul_mod_self_right, Nat.mod_eq_of_lt hj]
  have hdd : ((d : Int) * (d : Int)).toNat = d * d := by
    rw [toNat_mul_self _ (Int.natCast_nonneg d), Int.toNat_natCast]
  obtain ⟨p, hp⟩ := next_value_isSome state s (i : Int) (j : Int) (d : Int) acc.2
    (by rw [hlen, hdd]) hb
    (Int.natCast_nonneg i) (by exact_mod_cast hi) (Int.natCast_nonneg j) (by exact_mod_cast hj)
  have hnext : rng_before state s rng (j + i * d + 1) = p.2 := by
    rw [rng_before, hd]
    simp only [Int.toNat_natCast, hdiv, hmod]
    rw [← hr, hp]
  have hadv := advance_state_in_range state acc.1 s (i : Int) (j : Int) (d : Int) acc.2
    (Int.natCast_nonneg i) (by exact_mod_cast hi) (Int.natCast_nonneg j) (by exact_mod_cast hj)
    hb (by rw [hl, hlen, hdd])
  rw [hp, hidx, Int.toNat_natCast] at hadv
  refine ⟨_, hadv, ?_, ?_, ?_⟩
  · simp [hl]
  · rw [show j + 1 + i * d = j + i * d + 1 by omega, hnext]
  · intro k hklt
    by_cases hkeq : k = j + i * d
    · subst hkeq
      refine ⟨p.1, ?_, ?_⟩
      · simp only [Option.map_some']
        rw [List.getElem?_set_self (by rw [hl, hlen]; exact hk)]
      · rw [hdiv, hmod, hnext, ← hr, hp]
    · obtain ⟨v, hv, hnv⟩ := hcells k (by omega)
      refine ⟨v, ?_, hnv⟩
      simp only [Option.map_some']
      rw [List.getElem?_set_ne (fun h => hkeq h.symm)]
      exact hv

theorem simulation_step_trace (s : settings) (state : List Int) (rng : Rng)
    (hdim : 0 ≤ s.simulation_grid_dimension)
    (hb : s.simulation_grid_dimension * s.simulation_grid_dimension ≤ INT_MAX)
    (hlen : state.length = (s.simulation_grid_dimension * s.simulation_grid_dimension).toNat) :
    ∃ acc, simulation_step s state rng = some acc ∧
      step_inv s state rng state.length acc := by
  have hn : state.length = s.simulation_grid_dimension.toNat * s.simulation_grid_dimension.toNat := by
    rw [hlen, toNat_mul_self _ hdim]
  unfold simulation_step
  have houter := foldlM_range_inv
    (fun (acc : List Int × Rng) (i : Nat) => (List.range s.simulation_grid_dimension.toNat).foldlM
      (fun (acc : List Int × Rng) (j : Nat) =>
        advance_state state acc.1 s (i : Int) (j : Int) s.simulation_grid_dimension acc.2) acc)
    (fun i acc => step_inv s state rng (i * s.simulation_grid_dimension.toNat) acc)
    s.simulation_grid_dimension.toNat
    (malloc (s.simulation_grid_dimension * s.simulation_grid_dimension), rng)
    (by
      refine ⟨?_, ?_, ?_⟩
      · simp [malloc, hlen]
      · simp [rng_before]
      · intro k hk
        simp at hk)
    (by
      intro i acc hi hinv
      have hinner := foldlM_range_inv
        (fun (acc : List Int × Rng) (j : Nat) => advance_state state acc.1 s (i : Int) (j : Int)
          s.simulation_grid_dimension acc.2)
        (fun j acc => step_inv s state rng (j + i * s.simulation_grid_dimension.toNat) acc)
        s.simulation_grid_dimension.toNat acc
        (by simpa using hinv)
        (by
          intro j a hj ha
          exact step_inv_cell s state rng hdim hb hlen i j hi hj a ha)
      obtain ⟨a', ha', hinv'⟩ := hinner
      refine ⟨a', ha', ?_⟩
      show step_inv s state rng ((i + 1) * s.simulation_grid_dimension.toNat) a'
      rw [show (i + 1) * s.simulation_grid_dimension.toNat
        = s.simulation_grid_dimension.toNat + i * s.simulation_grid_dimension.toNat by ring]
      exact hinv')
  obtain ⟨acc, hacc, hinv⟩ := houter
  exact ⟨acc, hacc, by rw [hn]; exact hinv⟩

theorem valid_cell_iff (m c : Int) :
    valid_cell m c ↔ c = 0 ∨ (1 ≤ c ∧ c ≤ m) ∨ c = CURED_STATE ∨ c = DEAD_STATE := by
  unfold valid_cell state_classes CURED_STATE DEAD_STATE
  constructor
  · intro h
    by_contra hne
    simp only [not_or] at hne
    obtain ⟨h1, h2, h3, h4⟩ := hne
    simp [h1, h2, h3, h4] at h
  · rintro (h | h | h | h)
    · subst h; simp
    · have h0 : c ≠ 0 := by omega
      have h3 : c ≠ -128 := by omega
      have h4 : c ≠ -256 := by omega
      simp [h, h0, h3, h4]
    · subst h; simp
    · subst h; simp

theorem next_value_valid (current : List Int) (s : settings) (x y size : Int) (rng : Rng)
    (hm : 1 ≤ s.max_infected_value) (hmax : s.max_infected_value < INT_MAX) (c : Int)
    (hc : peek current (int_add y (int_mul x size)) = some c)
    (hv : valid_cell s.max_infected_value c) (p : Int × Rng)
    (hp : next_value current s x y size rng = some p) :
    valid_cell s.max_infected_value p.1 := by
  rw [valid_cell_iff] at hv ⊢
  simp only [next_value, hc] at hp
  split_ifs at hp with h1 h2 h3 h4 h5
  · cases hp; rcases h1 with h | h <;> simp [h]
  · cases hp; simp
  · cases hp; simp
  · cases hp; right; left; exact ⟨hm, le_refl _⟩
  · cases hp
    right; left
    have : c ≠ CURED_STATE ∧ c ≠ DEAD_STATE := by
      constructor <;> intro h <;> simp [h] at h1
    rcases hv with h | h | h | h
    · exact absurd h h2
    · have hadd : int_add c 1 = c + 1 :=
        int_add_eq c 1 (by unfold INT_MIN; omega) (by omega)
      rw [hadd] at h4 ⊢
      dsimp only
      omega
    · exact absurd h this.1
    · exact absurd h this.2
  · rcases hn : neighbour_infected current x y size with _ | b
    · simp [hn] at hp
    · cases b <;> simp only [hn] at hp <;> cases hp
      · simp
      · right; left; simp [hm]
  · rcases hn : neighbour_infected current x y size with _ | b
    · simp [hn] at hp
    · cases b <;> simp only [hn] at hp <;> cases hp <;> simp

theorem simulation_step_pointwise (s : settings) (state : List Int) (rng : Rng)
    (hdim : 0 ≤ s.simulation_grid_dimension)
    (hb : s.simulation_grid_dimension * s.simulation_grid_dimension ≤ INT_MAX)
    (hlen : state.length = (s.simulation_grid_dimension * s.simulation_grid_dimension).toNat)
    (R : Nat → Int → Prop)
    (hR : ∀ (i j : Nat) (r : Rng) (p : Int × Rng), i < s.simulation_grid_dimension.toNat →
      j < s.simulation_grid_dimension.toNat →
      next_value state s (i : Int) (j : Int) s.simulation_grid_dimension r = some p →
      R (j + i * s.simulation_grid_dimension.toNat) p.1) :
    ∃ g r, simulation_step s state rng = some (g, r) ∧ g.length = state.length ∧
      ∀ k v, g[k]? = some v → R k v := by
  obtain ⟨acc, hacc, hl, _, hcells⟩ := simulation_step_trace s state rng hdim hb hlen
  refine ⟨acc.1, acc.2, hacc, hl, ?_⟩
  intro k v hv
  have hk : k < state.length := by
    rw [← hl]
    exact (List.getElem?_eq_some.mp hv).1
  obtain ⟨v', hv', hnv⟩ := hcells k hk
  rw [hv] at hv'
  cases hv'
  have hn : state.length = s.simulation_grid_dimension.toNat * s.simulation_grid_dimension.toNat := by
    rw [hlen, toNat_mul_self _ hdim]
  rw [hn] at hk
  have hd : 0 < s.simulation_grid_dimension.toNat := by
    rcases Nat.eq_zero_or_pos s.simulation_grid_dimension.toNat with h | h
    · rw [h] at hk; simp at hk
    · exact h
  have := hR (k / s.simulation_grid_dimension.toNat) (k % s.simulation_grid_dimension.toNat) _ _
    (Nat.div_lt_of_lt_mul hk) (Nat.mod_lt _ hd) hnv
  rwa [Nat.mod_add_div'] at this

theorem next_value_cell (s : settings) (state : List Int)
    (hdim : 0 ≤ s.simulation_grid_dimension)
    (hb : s.simulation_grid_dimension * s.simulation_grid_dimension ≤ INT_MAX)
    (i j : Nat) (hi : i < s.simulation_grid_dimension.toNat)
    (hj : j < s.simulation_grid_dimension.toNat) :
    peek state (int_add (j : Int) (int_mul (i : Int) s.simulation_grid_dimension))
      = state[j + i * s.simulation_grid_dimension.toNat]? := by
  obtain ⟨d, hd⟩ := Int.eq_ofNat_of_zero_le hdim
  rw [hd] at hi hj hb ⊢
  simp only [Int.toNat_natCast] at hi hj ⊢
  exact peek_cell state i j d hi hj hb

theorem simulation_step_valid (s : settings) (state : List Int) (rng : Rng)
    (hdim : 0 ≤ s.simulation_grid_dimension)
    (hb : s.simulation_grid_dimension * s.simulation_grid_dimension ≤ INT_MAX)
    (hm : 1 ≤ s.max_infected_value) (hmax : s.max_infected_value < INT_MAX)
    (hlen : state.length = (s.simulation_grid_dimension * s.simulation_grid_dimension).toNat)
    (hvalid : valid_grid s.max_infected_value state) :
    ∃ g r, simulation_step s state rng = some (g, r) ∧ g.length = state.length ∧
      valid_grid s.max_infected_value g := by
  obtain ⟨g, r, hg, hl, hcells⟩ := simulation_step_pointwise s state rng hdim hb hlen
    (fun _ v => valid_cell s.max_infected_value v)
    (by
      intro i j r p hi hj hp
      have hpc := next_value_cell s state hdim hb i j hi hj
      rcases hc : peek state (int_add (j : Int) (int_mul (i : Int) s.simulation_grid_dimension))
        with _ | c
      · simp [next_value, hc] at hp
      · have hmem : c ∈ state := by
          rw [hpc] at hc
          exact List.getElem?_mem hc
        exact next_value_valid state s i j _ r hm hmax c hc (hvalid c hmem) p hp)
  refine ⟨g, r, hg, hl, ?_⟩
  intro c hc
  obtain ⟨k, hk⟩ := List.mem_iff_getElem?.mp hc
  exact hcells k c hk

theorem init_simulation_mid (s : settings) (buf : List Int)
    (hdim : 1 ≤ s.simulation_grid_dimension)
    (hmid : Int.tdiv s.simulation_grid_dimension 2
      + Int.tdiv s.simulation_grid_dimension 2 * s.simulation_grid_dimension ≤ INT_MAX)
    (hlen : buf.length = (s.simulation_grid_dimension * s.simulation_grid_dimension).toNat) :
    init_simulation s buf = some ((List.replicate
        (s.simulation_grid_dimension * s.simulation_grid_dimension).toNat 0).set
        (centre s.simulation_grid_dimension) 1) ∧
      centre s.simulation_grid_dimension <
        (s.simulation_grid_dimension * s.simulation_grid_dimension).toNat := by
  obtain ⟨d, hd⟩ := Int.eq_ofNat_of_zero_le (le_trans (by decide) hdim)
  rw [hd] at hdim hlen hmid ⊢
  have hd1 : 1 ≤ d := by exact_mod_cast hdim
  have hmidq : Int.tdiv (d : Int) 2 = ((d / 2 : Nat) : Int) := (Int.ofNat_tdiv d 2).symm
  have hidx : Int.tdiv (d : Int) 2 + Int.tdiv (d : Int) 2 * (d : Int)
      = ((d / 2 + d / 2 * d : Nat) : Int) := by
    rw [hmidq]; push_cast; ring
  have h1 : d / 2 < d := by omega
  have hmin : INT_MIN ≤ 0 := by decide
  have hprod : (0 : Int) ≤ ((d / 2 : Nat) : Int) * (d : Int) :=
    mul_nonneg (Int.natCast_nonneg _) (Int.natCast_nonneg _)
  have hmid0 : (0 : Int) ≤ ((d / 2 : Nat) : Int) := Int.natCast_nonneg _
  rw [hmidq] at hmid
  have hwrap : int_add (Int.tdiv (d : Int) 2) (int_mul (Int.tdiv (d : Int) 2) (d : Int))
      = ((d / 2 + d / 2 * d : Nat) : Int) := by
    rw [← hidx, hmidq, int_mul_eq _ _ (by linarith) (by linarith),
      int_add_eq _ _ (by linarith) hmid]
  have hn : ((d : Int) * (d : Int)).toNat = d * d := by
    rw [toNat_mul_self _ (Int.natCast_nonneg d), Int.toNat_natCast]
  have hc : centre (d : Int) = d / 2 + d / 2 * d := by
    unfold centre
    rw [hidx, Int.toNat_natCast]
  have hlt : d / 2 + d / 2 * d < d * d :=
    cell_index_lt d (d / 2) (d / 2) h1 h1
  rw [hn] at hlen ⊢
  constructor
  · unfold init_simulation
    simp only [hd, hn, hlen, le_refl, if_true, hwrap]
    rw [List.drop_eq_nil_of_le (by rw [hlen]), List.append_nil, hc]
    exact poke_natCast _ _ _ (by simpa using hlt)
  · rw [hc]; exact hlt

theorem init_simulation_eq (s : settings) (buf : List Int)
    (hdim : 1 ≤ s.simulation_grid_dimension)
    (hb : s.simulation_grid_dimension * s.simulation_grid_dimension ≤ INT_MAX)
    (hlen : buf.length = (s.simulation_grid_dimension * s.simulation_grid_dimension).toNat) :
    init_simulation s buf = some ((List.replicate
        (s.simulation_grid_dimension * s.simulation_grid_dimension).toNat 0).set
        (centre s.simulation_grid_dimension) 1) ∧
      centre s.simulation_grid_dimension <
        (s.simulation_grid_dimension * s.simulation_grid_dimension).toNat := by
  apply init_simulation_mid s buf hdim _ hlen
  have htd : Int.tdiv s.simulation_grid_dimension 2 = s.simulation_grid_dimension / 2 :=
    Int.tdiv_eq_ediv (by omega) (by decide)
  have h2 : 0 ≤ Int.tdiv s.simulation_grid_dimension 2 := by rw [htd]; omega
  have h3 : Int.tdiv s.simulation_grid_dimension 2 < s.simulation_grid_dimension := by
    rw [htd]; omega
  have h4 := (index_bounds _ _ _ h2 h3 h2 h3).2
  linarith

theorem run_steps_inv (s : settings) (n : Nat) (P : List Int → Prop)
    (hP : ∀ state rng, state.length = n → P state →
      ∃ g r, simulation_step s state rng = some (g, r) ∧ g.length = n ∧ P g) :
    ∀ (N : Nat) (state : List Int) (rng : Rng), state.length = n → P state →
      ∃ g r, run_steps s N state rng = some (g, r) ∧ g.length = n ∧ P g := by
  intro N
  induction N with
  | zero =>
    intro state rng hl hp
    exact ⟨state, rng, rfl, hl, hp⟩
  | succ k ih =>
    intro state rng hl hp
    obtain ⟨g, r, hg, hgl, hgp⟩ := hP state rng hl hp
    obtain ⟨g', r', hg', hgl', hgp'⟩ := ih g r hgl hgp
    exact ⟨g', r', by simp only [run_steps, hg, hg'], hgl', hgp'⟩

theorem init_simulation_valid (s : settings) (hm : 1 ≤ s.max_infected_value) (n k : Nat) :
    valid_grid s.max_infected_value ((List.replicate n 0).set k 1) := by
  intro c hc
  rw [valid_cell_iff]
  rcases List.mem_or_eq_of_mem_set hc with h | h
  · left; exact (List.mem_replicate.mp h).2
  · right; left; subst h; exact ⟨le_refl _, hm⟩

theorem large_index_negative :
    int_add (46340 : Int) (int_mul (46340 : Int) (46341 : Int)) = -2147479016 := by
  decide

theorem advance_state_large (current next : List Int) (s : settings) (rng : Rng) :
    advance_state current next s 46340 46340 46341 rng = none := by
  simp only [advance_state, large_index_negative, peek_neg _ _ (by decide : (-2147479016 : Int) < 0)]

theorem simulation_step_large (s : settings) (state : List Int) (rng : Rng)
    (hd : s.simulation_grid_dimension = 46341) : simulation_step s state rng = none := by
  unfold simulation_step
  rw [hd]
  apply foldlM_range_none _ _ 46340 (by decide)
  intro a
  apply foldlM_range_none _ _ 46340 (by decide)
  intro b
  exact advance_state_large state b.1 s b.2

theorem tally_state_large (state : List Int) : tally_state state 46341 = none := by
  unfold tally_state
  apply foldlM_range_none _ _ 46340 (by decide)
  intro a
  apply foldlM_range_none _ _ 46340 (by decide)
  intro b
  show tally_cell state 46341 46340 46340 b = none
  unfold tally_cell
  have h : int_add ((46340 : Nat) : Int) (int_mul ((46340 : Nat) : Int) (46341 : Int))
      = -2147479016 := by decide
  rw [h, peek_neg _ _ (by decide)]

theorem large_grid_length (c : Int) :
    (large_grid c).length
      = (large_settings.simulation_grid_dimension * large_settings.simulation_grid_dimension).toNat := by
  rw [large_grid, List.length_replicate]
  decide

theorem peek_large_grid (c k : Int) (h0 : 0 ≤ k) (h1 : k < 2147488281) :
    peek (large_grid c) k = some c := by
  unfold peek large_grid
  rw [if_pos h0, List.getElem?_replicate, if_pos (by omega)]

theorem large_grid_valid (m c : Int) (h : valid_cell m c) : valid_grid m (large_grid c) := by
  intro v hv
  rw [(List.mem_replicate.mp hv).2]
  exact h

theorem run_steps_large (s : settings) (state : List Int) (rng : Rng) (n : Nat)
    (hd : s.simulation_grid_dimension = 46341) : run_steps s (n + 1) state rng = none := by
  simp only [run_steps, simulation_step_large s state rng hd]

theorem int_max_step :
    advance_state [2147483647] [0] int_max_settings 0 0 1 zero_rng
      = some ([-2147483648], zero_rng.skip 1) := by
  have h := advance_state_eq_next_value [2147483647] [0] int_max_settings 0 0 1 zero_rng
    (by decide) (by decide)
  rw [h]
  have hidx : int_add (0 : Int) (int_mul 0 1) = 0 := by decide
  have hadd : int_add (2147483647 : Int) 1 = -2147483648 := by decide
  have hl : int_max_settings.lethality = 0 := rfl
  have hm : int_max_settings.max_infected_value = 2147483647 := rfl
  simp only [next_value, hidx, hadd, hl, hm, chance_zero]
  rfl

theorem int_max_simulation_step :
    simulation_step int_max_settings [2147483647] zero_rng
      = some ([-2147483648], zero_rng.skip 1) := by
  have h := int_max_step
  have hr : List.range (Int.toNat 1) = [0] := rfl
  have hm : malloc (1 * 1) = [0] := rfl
  simp only [int_max_settings] at h
  simp only [simulation_step, int_max_settings, hr, hm, List.foldlM_cons, List.foldlM_nil,
    Nat.cast_zero, h]
  rfl

/-- C1, as stated, fails.  With `max_infected_value = INT_MAX` the grid that
holds Infected(`INT_MAX`) satisfies the invariant and `simulation_step` turns
the cell into `INT_MIN`, which is in none of the four classes: the sum
`current[index]+1` does not fit an `int`.  With `dim = 46341`, where
`dim*dim` exceeds `INT_MAX`, `simulation_step` has no result on the grid of
Healthy cells: the index `y + x*size` leaves the range of `int` and the read
falls outside the grid. -/
theorem state_invariant_counterexample :
    (valid_grid int_max_settings.max_infected_value [2147483647] ∧
      simulation_step int_max_settings [2147483647] zero_rng
        = some ([-2147483648], zero_rng.skip 1) ∧
      ¬ valid_grid int_max_settings.max_infected_value [-2147483648]) ∧
    (valid_grid large_settings.max_infected_value (large_grid 0) ∧
      (large_grid 0).length = (large_settings.simulation_grid_dimension
        * large_settings.simulation_grid_dimension).toNat ∧
      simulation_step large_settings (large_grid 0) zero_rng = none) := by
  exact ⟨⟨by decide, int_max_simulation_step, by decide⟩, large_grid_valid _ _ (by decide),
    large_grid_length 0, simulation_step_large _ _ _ rfl⟩

/-- C1, amended.  State invariant: with `dim ≥ 1`, `dim*dim ≤ INT_MAX` and
`1 ≤ max_infected_value < INT_MAX`, the grid built by `init_simulation` and
every grid obtained from it by any number of `simulation_step` calls, for
every generator, has each cell in exactly one of the classes Healthy,
Infected(n) with `1 ≤ n ≤ max_infected_value`, Cured, Dead; and
`simulation_step` maps every grid with that property to a grid with that
property. -/
theorem state_invariant (s : settings) (hdim : 1 ≤ s.simulation_grid_dimension)
    (hb : s.simulation_grid_dimension * s.simulation_grid_dimension ≤ INT_MAX)
    (hm : 1 ≤ s.max_infected_value) (hmax : s.max_infected_value < INT_MAX) :
    (∀ (buf : List Int) (rng : Rng) (N : Nat),
      buf.length = (s.simulation_grid_dimension * s.simulation_grid_dimension).toNat →
      ∃ g0 g r, init_simulation s buf = some g0 ∧ run_steps s N g0 rng = some (g, r) ∧
        g.length = (s.simulation_grid_dimension * s.simulation_grid_dimension).toNat ∧
        valid_grid s.max_infected_value g) ∧
    (∀ (state : List Int) (rng : Rng),
      state.length = (s.simulation_grid_dimension * s.simulation_grid_dimension).toNat →
      valid_grid s.max_infected_value state →
      ∃ g r, simulation_step s state rng = some (g, r) ∧ g.length = state.length ∧
        valid_grid s.max_infected_value g) := by
  have hdim0 : 0 ≤ s.simulation_grid_dimension := le_trans (by decide) hdim
  have hstep : ∀ (state : List Int) (rng : Rng),
      state.length = (s.simulation_grid_dimension * s.simulation_grid_dimension).toNat →
      valid_grid s.max_infected_value state →
      ∃ g r, simulation_step s state rng = some (g, r) ∧
        g.length = (s.simulation_grid_dimension * s.simulation_grid_dimension).toNat ∧
        valid_grid s.max_infected_value g := by
    intro state rng hl hv
    obtain ⟨g, r, hg, hgl, hgv⟩ := simulation_step_valid s state rng hdim0 hb hm hmax hl hv
    exact ⟨g, r, hg, hgl.trans hl, hgv⟩
  constructor
  · intro buf rng N hlen
    obtain ⟨hinit, _⟩ := init_simulation_eq s buf hdim hb hlen
    obtain ⟨g, r, hg, hgl, hgv⟩ := run_steps_inv s _ (valid_grid s.max_infected_value) hstep N
      ((List.replicate (s.simulation_grid_dimension * s.simulation_grid_dimension).toNat 0).set
        (centre s.simulation_grid_dimension) 1) rng (by simp) (init_simulation_valid s hm _ _)
    exact ⟨_, g, r, hinit, hg, hgl, hgv⟩
  · intro state rng hl hv
    obtain ⟨g, r, hg, hgl, hgv⟩ := hstep state rng hl hv
    exact ⟨g, r, hg, hgl.trans hl.symm, hgv⟩

/-- Instance of `state_invariant`: the 3×3 grid after two steps. -/
theorem state_invariant_witness :
    ∃ g0 g r, init_simulation demo_settings (malloc 9) = some g0 ∧
      run_steps demo_settings 2 g0 zero_rng = some (g, r) ∧
      g.length = (demo_settings.simulation_grid_dimension *
        demo_settings.simulation_grid_dimension).toNat ∧
      valid_grid demo_settings.max_infected_value g :=
  (state_invariant demo_settings (by decide) (by decide) (by decide) (by decide)).1 (malloc 9)
    zero_rng 2 (by decide)

theorem next_value_absorbing (current : List Int) (s : settings) (x y size : Int) (rng : Rng)
    (c : Int) (hc : c = CURED_STATE ∨ c = DEAD_STATE)
    (hpeek : peek current (int_add y (int_mul x size)) = some c) :
    next_value current s x y size rng = some (c, rng) := by
  simp only [next_value, hpeek, if_pos hc]

/-- C2, as stated, fails for a grid whose number of cells exceeds `INT_MAX`:
in the grid of side 46341 whose cells are all Cured, the cell
`(46340, 46340)` is in range and Cured, and `advance_state` has no result for
it, because the index `y + x*size` leaves the range of `int` and the read
falls outside the grid; so `simulation_step` has no result either. -/
theorem absorbing_states_counterexample :
    (large_grid CURED_STATE)[46340 + 46340 * 46341]? = some CURED_STATE ∧
    advance_state (large_grid CURED_STATE) (malloc (46341 * 46341)) large_settings
      46340 46340 46341 zero_rng = none ∧
    run_steps large_settings 1 (large_grid CURED_STATE) zero_rng = none := by
  refine ⟨?_, advance_state_large _ _ _ _, run_steps_large _ _ _ 0 rfl⟩
  rw [large_grid, List.getElem?_replicate, if_pos (by decide)]

/-- C2, amended.  Absorbing states, for grids of at most `INT_MAX` cells
(`size*size ≤ INT_MAX`): on a Cured or Dead cell `advance_state` writes the
value it read into `next[index]` and leaves the generator untouched (no draw);
hence a cell that is Cured or Dead keeps its value through any number of
`simulation_step` calls, for every generator. -/
theorem absorbing_states (s : settings) (c : Int) (hc : c = CURED_STATE ∨ c = DEAD_STATE)
    (hdim : 0 ≤ s.simulation_grid_dimension)
    (hb : s.simulation_grid_dimension * s.simulation_grid_dimension ≤ INT_MAX) :
    (∀ (current next : List Int) (x y size : Int) (rng : Rng),
      0 ≤ x → x < size → 0 ≤ y → y < size → size * size ≤ INT_MAX →
      next.length = (size * size).toNat →
      peek current (y + x * size) = some c →
      advance_state current next s x y size rng
        = some (next.set (y + x * size).toNat c, rng)) ∧
    (∀ (state : List Int) (rng : Rng) (N k : Nat),
      state.length = (s.simulation_grid_dimension * s.simulation_grid_dimension).toNat →
      state[k]? = some c →
      ∃ g r, run_steps s N state rng = some (g, r) ∧ g.length = state.length ∧
        g[k]? = some c) := by
  constructor
  · intro current next x y size rng hx0 hx hy0 hy hsz hnl hpeek
    rw [advance_state_in_range current next s x y size rng hx0 hx hy0 hy hsz hnl,
      next_value_absorbing current s x y size rng c hc
        (by rw [index_exact x y size hx0 hx hy0 hy hsz]; exact hpeek)]
    rfl
  · intro state rng N k hlen hk
    have hstep : ∀ (st : List Int) (r : Rng),
        st.length = (s.simulation_grid_dimension * s.simulation_grid_dimension).toNat →
        st[k]? = some c →
        ∃ g r', simulation_step s st r = some (g, r') ∧
          g.length = (s.simulation_grid_dimension * s.simulation_grid_dimension).toNat ∧
          g[k]? = some c := by
      intro st r hl hst
      obtain ⟨g, r', hg, hgl, hcells⟩ := simulation_step_pointwise s st r hdim hb hl
        (fun k' v => st[k']? = some c → v = c)
        (by
          intro i j r0 p hi hj hp hcell
          rw [next_value_absorbing st s i j _ r0 c hc
            (by rw [next_value_cell s st hdim hb i j hi hj]; exact hcell)] at hp
          cases hp
          rfl)
      refine ⟨g, r', hg, hgl.trans hl, ?_⟩
      have hkl : k < g.length := by
        rw [hgl]
        exact (List.getElem?_eq_some.mp hst).1
      have hgk : g[k]? = some g[k] := List.getElem?_eq_getElem hkl
      rw [hgk, hcells k g[k] hgk hst]
    obtain ⟨g, r, hg, hgl, hgk⟩ := run_steps_inv s _ (fun g => g[k]? = some c) hstep N state rng
      hlen hk
    exact ⟨g, r, hg, hgl.trans hlen.symm, hgk⟩

/-- Instance of `absorbing_states`: a Cured cell of a 3×3 grid, five steps. -/
theorem absorbing_states_witness :
    ∃ g r, run_steps demo_settings 5 [0, 1, 0, CURED_STATE, 2, 0, DEAD_STATE, 0, 0] zero_rng
        = some (g, r) ∧
      g.length = [0, 1, 0, CURED_STATE, 2, 0, DEAD_STATE, 0, 0].length ∧
      g[3]? = some CURED_STATE :=
  (absorbing_states demo_settings CURED_STATE (Or.inl rfl) (by decide) (by decide)).2
    [0, 1, 0, CURED_STATE, 2, 0, DEAD_STATE, 0, 0] zero_rng 5 3 (by decide) (by decide)

theorem tally_of_snoc (l : List Int) (c : Int) :
    tally_of (l ++ [c]) =
      if c = CURED_STATE then
        ⟨(tally_of l).healthy, (tally_of l).infected, (tally_of l).cured + 1, (tally_of l).dead⟩
      else if c = DEAD_STATE then
        ⟨(tally_of l).healthy, (tally_of l).infected, (tally_of l).cured, (tally_of l).dead + 1⟩
      else if c = 0 then
        ⟨(tally_of l).healthy + 1, (tally_of l).infected, (tally_of l).cured, (tally_of l).dead⟩
      else
        ⟨(tally_of l).healthy, (tally_of l).infected + 1, (tally_of l).cured, (tally_of l).dead⟩ := by
  simp only [tally_of, List.countP_append, List.countP_cons, List.countP_nil]
  by_cases h1 : c = CURED_STATE
  · subst h1; simp [CURED_STATE, DEAD_STATE]
  · by_cases h2 : c = DEAD_STATE
    · subst h2; simp [CURED_STATE, DEAD_STATE]
    · by_cases h3 : c = 0
      · subst h3; simp [CURED_STATE, DEAD_STATE]
      · simp [h1, h2, h3]

theorem tally_of_sum (l : List Int) :
    (tally_of l).healthy + (tally_of l).infected + (tally_of l).cured + (tally_of l).dead
      = (l.length : Int) := by
  induction l using List.reverseRecOn with
  | nil => simp [tally_of]
  | append_singleton l c ih =>
    rw [tally_of_snoc]
    split_ifs <;> simp only [List.length_append, List.length_singleton, Nat.cast_add,
      Nat.cast_one] <;> omega

theorem tally_of_le (l : List Int) :
    (0 ≤ (tally_of l).healthy ∧ (tally_of l).healthy ≤ (l.length : Int)) ∧
    (0 ≤ (tally_of l).infected ∧ (tally_of l).infected ≤ (l.length : Int)) ∧
    (0 ≤ (tally_of l).cured ∧ (tally_of l).cured ≤ (l.length : Int)) ∧
    (0 ≤ (tally_of l).dead ∧ (tally_of l).dead ≤ (l.length : Int)) := by
  unfold tally_of
  refine ⟨⟨Int.natCast_nonneg _, ?_⟩, ⟨Int.natCast_nonneg _, ?_⟩, ⟨Int.natCast_nonneg _, ?_⟩,
    ⟨Int.natCast_nonneg _, ?_⟩⟩ <;> (dsimp only; exact_mod_cast List.countP_le_length _)

theorem counter_exact (n len : Int) (h0 : 0 ≤ n) (h1 : n ≤ len) (h2 : len < INT_MAX) :
    int_add n 1 = n + 1 := by
  apply int_add_eq
  · have : INT_MIN ≤ 0 := by decide
    linarith
  · linarith

theorem tally_state_eq (state : List Int) (dim : Int) (hdim : 0 ≤ dim)
    (hb : dim * dim ≤ INT_MAX) (hlen : state.length = (dim * dim).toNat) :
    tally_state state dim = some (tally_of state) := by
  obtain ⟨d, rfl⟩ := Int.eq_ofNat_of_zero_le hdim
  rw [toNat_mul_self _ hdim, Int.toNat_natCast] at hlen
  unfold tally_state
  rw [Int.toNat_natCast]
  have houter := foldlM_range_inv
    (fun (t : Tally) (i : Nat) => (List.range d).foldlM
      (fun (t : Tally) (j : Nat) => tally_cell state (d : Int) i j t) t)
    (fun i t => t = tally_of (state.take (i * d))) d (⟨0, 0, 0, 0⟩ : Tally)
    (by simp [tally_of])
    (by
      intro i t hi ht
      have hinner := foldlM_range_inv
        (fun (t : Tally) (j : Nat) => tally_cell state (d : Int) i j t)
        (fun j t => t = tally_of (state.take (j + i * d))) d t
        (by simpa using ht)
        (by
          intro j a hj ha
          have hk : j + i * d < state.length := by
            rw [hlen]; exact cell_index_lt d i j hi hj
          have hkd : j + i * d < d * d := cell_index_lt d i j hi hj
          have hlt : ((state.take (j + i * d)).length : Int) < INT_MAX := by
            have h1 : (state.take (j + i * d)).length = j + i * d := by
              rw [List.length_take]; omega
            have h2 : ((j + i * d : Nat) : Int) < ((d * d : Nat) : Int) := by exact_mod_cast hkd
            rw [h1]
            push_cast at h2 ⊢
            linarith
          obtain ⟨⟨a1, b1⟩, ⟨a2, b2⟩, ⟨a3, b3⟩, ⟨a4, b4⟩⟩ := tally_of_le (state.take (j + i * d))
          refine ⟨_, ?_, rfl⟩
          have hget : state[j + i * d]? = some state[j + i * d] := List.getElem?_eq_getElem hk
          rw [show j + 1 + i * d = j + i * d + 1 by omega, List.take_succ, hget, Option.toList,
            tally_of_snoc, ha]
          simp only [tally_cell, peek_cell state i j d hi hj hb, hget,
            counter_exact _ _ a1 b1 hlt, counter_exact _ _ a2 b2 hlt,
            counter_exact _ _ a3 b3 hlt, counter_exact _ _ a4 b4 hlt]
          split_ifs <;> rfl)
      obtain ⟨a', ha', hinv'⟩ := hinner
      refine ⟨a', ha', ?_⟩
      show a' = tally_of (state.take ((i + 1) * d))
      rw [show (i + 1) * d = d + i * d by ring]
      exact hinv')
  obtain ⟨t, ht, hinv⟩ := houter
  rw [ht, hinv, ← hlen, List.take_length]

/-- C3, as stated, fails for `dim = 46341`, where `dim*dim` exceeds `INT_MAX`:
on a grid of `dim*dim` cells `tally_state` has no result, because the index
`j+i*dim` leaves the range of `int` and the read falls outside the grid. -/
theorem tally_state_sum_counterexample :
    (0 : Int) ≤ 46341 ∧ (large_grid 7).length = ((46341 : Int) * 46341).toNat ∧
    tally_state (large_grid 7) 46341 = none :=
  ⟨by decide, large_grid_length 7, tally_state_large _⟩

/-- C3, amended.  For every `dim ≥ 0` with `dim*dim ≤ INT_MAX` and every
buffer of `dim*dim` cells, whatever they hold, `tally_state` returns four
counts, each non-negative, whose sum is `dim*dim`.  The buffer is an argument
(`const int *`) and is not part of the result. -/
theorem tally_state_sum (state : List Int) (dim : Int) (hdim : 0 ≤ dim)
    (hb : dim * dim ≤ INT_MAX) (hlen : state.length = (dim * dim).toNat) :
    ∃ t, tally_state state dim = some t ∧
      0 ≤ t.healthy ∧ 0 ≤ t.infected ∧ 0 ≤ t.cured ∧ 0 ≤ t.dead ∧
      t.healthy + t.infected + t.cured + t.dead = dim * dim := by
  refine ⟨tally_of state, tally_state_eq state dim hdim hb hlen, ?_, ?_, ?_, ?_, ?_⟩
  · exact Int.natCast_nonneg _
  · exact Int.natCast_nonneg _
  · exact Int.natCast_nonneg _
  · exact Int.natCast_nonneg _
  · rw [tally_of_sum, hlen, Int.toNat_of_nonneg (mul_self_nonneg dim)]

/-- Instance of `tally_state_sum`: a 3×3 buffer holding all kinds of values. -/
theorem tally_state_sum_witness :
    ∃ t, tally_state [1, CURED_STATE, DEAD_STATE, 0, 7, -5, 0, 0, 0] 3 = some t ∧
      0 ≤ t.healthy ∧ 0 ≤ t.infected ∧ 0 ≤ t.cured ∧ 0 ≤ t.dead ∧
      t.healthy + t.infected + t.cured + t.dead = 3 * 3 :=
  tally_state_sum [1, CURED_STATE, DEAD_STATE, 0, 7, -5, 0, 0, 0] 3 (by decide) (by decide)
    (by decide)

/-- C4, as stated, fails.  With `max_infected_value = INT_MAX`, on a cell
holding Infected(`INT_MAX`) whose lethality draw fails, `n+1` exceeds
`max_infected_value`, yet `advance_state` makes no second draw and writes
`INT_MIN`, neither Cured nor Infected(`max_infected_value`): the sum
`current[index]+1` does not fit an `int`.  And in a grid of side 46341 the
in-range cell `(46340, 46340)` holding Infected(1) gets no result at all,
because its index leaves the range of `int`. -/
theorem infected_transition_counterexample :
    (peek [2147483647] (0 + 0 * 1) = some 2147483647 ∧
      (1 : Int) ≤ 2147483647 ∧ (2147483647 : Int) ≤ int_max_settings.max_infected_value ∧
      ¬ (uniform_draw (zero_rng.draws zero_rng.pos) < int_max_settings.lethality) ∧
      ¬ ((2147483647 : Int) + 1 ≤ int_max_settings.max_infected_value) ∧
      advance_state [2147483647] [0] int_max_settings 0 0 1 zero_rng
        = some ([-2147483648], zero_rng.skip 1)) ∧
    ((large_grid 1)[46340 + 46340 * 46341]? = some 1 ∧
      advance_state (large_grid 1) (malloc (46341 * 46341)) large_settings 46340 46340 46341
        zero_rng = none) := by
  refine ⟨⟨by decide, by decide, by decide, ?_, by decide, int_max_step⟩, ?_,
    advance_state_large _ _ _ _⟩
  · exact not_lt.mpr (uniform_draw_nonneg _)
  · rw [large_grid, List.getElem?_replicate, if_pos (by decide)]

/-- C4, amended.  Infected transition, for grids of at most `INT_MAX` cells
and `max_infected_value < INT_MAX`: on a cell holding Infected(n),
`1 ≤ n ≤ max_infected_value`, `advance_state` draws once and writes Dead when
that draw (the double `rand() / RAND_MAX`) is below `lethality`; otherwise it
writes Infected(n+1) without a further draw when `n+1 ≤ max_infected_value`,
and else draws exactly once more and writes Cured when the second draw is
below `immunization_chance` and Infected(max_infected_value) when it is
not. -/
theorem infected_transition (s : settings) (current next : List Int) (x y size : Int)
    (rng : Rng) (n : Int) (hx0 : 0 ≤ x) (hx : x < size) (hy0 : 0 ≤ y) (hy : y < size)
    (hb : size * size ≤ INT_MAX) (hmax : s.max_infected_value < INT_MAX)
    (hnl : next.length = (size * size).toNat)
    (hpeek : peek current (y + x * size) = some n)
    (hn1 : 1 ≤ n) (hnm : n ≤ s.max_infected_value) :
    advance_state current next s x y size rng =
      if uniform_draw (rng.draws rng.pos) < s.lethality then
        some (next.set (y + x * size).toNat DEAD_STATE, rng.skip 1)
      else if n + 1 ≤ s.max_infected_value then
        some (next.set (y + x * size).toNat (n + 1), rng.skip 1)
      else if uniform_draw (rng.draws (rng.pos + 1)) < s.immunization_chance then
        some (next.set (y + x * size).toNat CURED_STATE, rng.skip 2)
      else
        some (next.set (y + x * size).toNat s.max_infected_value, rng.skip 2) := by
  rw [advance_state_in_range current next s x y size rng hx0 hx hy0 hy hb hnl]
  have hne : ¬(n = CURED_STATE ∨ n = DEAD_STATE) := by
    unfold CURED_STATE DEAD_STATE; omega
  have hnz : n ≠ 0 := by omega
  have hadd : int_add n 1 = n + 1 := int_add_eq n 1 (by unfold INT_MIN; omega) (by omega)
  simp only [next_value, index_exact x y size hx0 hx hy0 hy hb, hpeek, if_neg hne, if_pos hnz,
    hadd, chance_fst, chance_snd, skip_skip, decide_eq_true_eq]
  by_cases hl : uniform_draw (rng.draws rng.pos) < s.lethality
  · rw [if_pos hl, if_pos hl]; rfl
  · rw [if_neg hl, if_neg hl]
    by_cases hle : n + 1 ≤ s.max_infected_value
    · rw [if_neg (by omega), if_pos hle]; rfl
    · rw [if_pos (by omega), if_neg hle]
      have hpos : (rng.skip 1).pos = rng.pos + 1 := rfl
      have hdr : (rng.skip 1).draws = rng.draws := rfl
      rw [hpos, hdr]
      split_ifs <;> rfl

/-- Instance of `infected_transition`: the centre cell of a 3×3 grid holding
Infected(10) with `max_infected_value = 10`. -/
theorem infected_transition_witness :
    advance_state [0, 0, 0, 0, 10, 0, 0, 0, 0] (malloc 9) demo_settings 1 1 3 zero_rng =
      if uniform_draw (zero_rng.draws zero_rng.pos) < demo_settings.lethality then
        some ((malloc 9).set (1 + 1 * 3 : Int).toNat DEAD_STATE, zero_rng.skip 1)
      else if 10 + 1 ≤ demo_settings.max_infected_value then
        some ((malloc 9).set (1 + 1 * 3 : Int).toNat (10 + 1), zero_rng.skip 1)
      else if uniform_draw (zero_rng.draws (zero_rng.pos + 1))
          < demo_settings.immunization_chance then
        some ((malloc 9).set (1 + 1 * 3 : Int).toNat CURED_STATE, zero_rng.skip 2)
      else
        some ((malloc 9).set (1 + 1 * 3 : Int).toNat demo_settings.max_infected_value,
          zero_rng.skip 2) :=
  infected_transition demo_settings [0, 0, 0, 0, 10, 0, 0, 0, 0] (malloc 9) 1 1 3 zero_rng 10
    (by decide) (by decide) (by decide) (by decide) (by decide) (by decide) (by decide)
    (by decide) (by decide) (by decide)

theorem has_infected_neighbour_congr (current other : List Int) (x y size : Int)
    (hsame : ∀ a b, ((a, b) = (x - 1, y) ∨ (a, b) = (x + 1, y) ∨ (a, b) = (x, y - 1) ∨
      (a, b) = (x, y + 1)) → 0 ≤ a → a < size → 0 ≤ b → b < size →
      peek other (b + a * size) = peek current (b + a * size)) :
    has_infected_neighbour other x y size ↔ has_infected_neighbour current x y size := by
  constructor
  · rintro ⟨a, b, v, hab, ha0, ha, hb0, hb, hv, hpos⟩
    exact ⟨a, b, v, hab, ha0, ha, hb0, hb, by rw [← hsame a b hab ha0 ha hb0 hb]; exact hv, hpos⟩
  · rintro ⟨a, b, v, hab, ha0, ha, hb0, hb, hv, hpos⟩
    exact ⟨a, b, v, hab, ha0, ha, hb0, hb, by rw [hsame a b hab ha0 ha hb0 hb]; exact hv, hpos⟩

theorem next_value_healthy (s : settings) (current : List Int) (x y size : Int) (rng : Rng)
    (hx0 : 0 ≤ x) (hx : x < size) (hy0 : 0 ≤ y) (hy : y < size)
    (hb : size * size ≤ INT_MAX)
    (hcl : current.length = (size * size).toNat)
    (hpeek : peek current (y + x * size) = some 0) :
    (¬ has_infected_neighbour current x y size →
      next_value current s x y size rng = some (0, rng)) ∧
    (has_infected_neighbour current x y size →
      next_value current s x y size rng =
        some (if uniform_draw (rng.draws rng.pos) < s.infectiousness then 1
          else 0, rng.skip 1)) := by
  obtain ⟨b, hb', hiff⟩ := neighbour_infected_in_range current x y size hcl hb hx0 hx hy0 hy
  have hne : ¬((0 : Int) = CURED_STATE ∨ (0 : Int) = DEAD_STATE) := by
    unfold CURED_STATE DEAD_STATE; omega
  have hidx := index_exact x y size hx0 hx hy0 hy hb
  constructor
  · intro hno
    have hbf : b = false := by
      cases b
      · rfl
      · exact absurd (hiff.mp rfl) hno
    subst hbf
    simp only [next_value, hidx, hpeek, if_neg hne, hb']
    simp
  · intro hyes
    have hbt : b = true := hiff.mpr hyes
    subst hbt
    simp only [next_value, hidx, hpeek, if_neg hne, hb', chance_fst, chance_snd,
      decide_eq_true_eq]
    simp only [ne_eq, not_true_eq_false, if_false]
    split_ifs <;> rfl

theorem large_grid_no_infection (x y size : Int) :
    ¬ has_infected_neighbour (large_grid 0) x y size := by
  rintro ⟨a, b, v, _, _, _, _, _, hv, hpos⟩
  have hmem : v ∈ large_grid 0 := List.getElem?_mem ((peek_eq_some_iff _ _ _).mp hv).2
  rw [large_grid, List.mem_replicate] at hmem
  omega

theorem advance_state_large_edge (g next : List Int) (s : settings) (rng : Rng)
    (h0 : peek g 2147483647 = some 0) (h1 : peek g 2147437306 = some 0)
    (h3 : peek g 2147483646 = some 0) :
    advance_state g next s 46340 41707 46341 rng = none := by
  have hi0 : int_add (41707 : Int) (int_mul 46340 46341) = 2147483647 := by decide
  have hi1 : int_add (41707 : Int) (int_mul (int_sub 46340 1) 46341) = 2147437306 := by decide
  have hi3 : int_add (int_sub (41707 : Int) 1) (int_mul 46340 46341) = 2147483646 := by decide
  have hi4 : int_add (int_add (41707 : Int) 1) (int_mul 46340 46341) = -2147483648 := by decide
  have hs : int_sub (46341 : Int) 1 = 46340 := by decide
  have h4 : peek g (-2147483648) = none := peek_neg _ _ (by decide)
  have hn : neighbour_infected g 46340 41707 46341 = none := by
    unfold neighbour_infected isinfected
    rw [hs, hi1, hi3, hi4, h1, h3, h4]
    rfl
  unfold advance_state
  rw [hi0]
  dsimp only
  rw [h0, hn]
  rfl

/-- C5, as stated, fails for a grid whose number of cells exceeds `INT_MAX`:
in the grid of side 46341 whose cells are all Healthy, the cell
`(46340, 41707)` is in range, Healthy and has no infected neighbour, its own
index is `INT_MAX`, and `advance_state` has no result for it, because the
index of its neighbour `(46340, 41708)` leaves the range of `int` and the read
falls outside the grid. -/
theorem healthy_transition_counterexample :
    peek (large_grid 0) 2147483647 = some 0 ∧
    (41707 : Int) + 46340 * 46341 = 2147483647 ∧
    ¬ has_infected_neighbour (large_grid 0) 46340 41707 46341 ∧
    advance_state (large_grid 0) (malloc (46341 * 46341)) large_settings 46340 41707 46341
      zero_rng = none :=
  ⟨peek_large_grid 0 _ (by decide) (by decide), by decide, large_grid_no_infection _ _ _,
    advance_state_large_edge _ _ _ _ (peek_large_grid 0 _ (by decide) (by decide))
      (peek_large_grid 0 _ (by decide) (by decide))
      (peek_large_grid 0 _ (by decide) (by decide))⟩

/-- C5, amended.  Healthy transition, for grids of at most `INT_MAX` cells
(`size*size ≤ INT_MAX`): on an in-range Healthy cell, if no cell among
`(x-1,y)`, `(x+1,y)`, `(x,y-1)`, `(x,y+1)` with both coordinates in
`[0, size)` holds a value `> 0`, `advance_state` writes Healthy and makes no
draw; if one does, it draws exactly once and writes Infected(1) when the draw
(the double `rand() / RAND_MAX`) is below `infectiousness` and Healthy when it
is not.  Any other grid of the same size with a Healthy cell at `(x, y)` and
the same values on those in-range neighbours gives the same result: no other
cell has an influence. -/
theorem healthy_transition (s : settings) (current next : List Int) (x y size : Int)
    (rng : Rng) (hx0 : 0 ≤ x) (hx : x < size) (hy0 : 0 ≤ y) (hy : y < size)
    (hb : size * size ≤ INT_MAX)
    (hcl : current.length = (size * size).toNat) (hnl : next.length = (size * size).toNat)
    (hpeek : peek current (y + x * size) = some 0) :
    (¬ has_infected_neighbour current x y size →
      advance_state current next s x y size rng
        = some (next.set (y + x * size).toNat 0, rng)) ∧
    (has_infected_neighbour current x y size →
      advance_state current next s x y size rng =
        some (next.set (y + x * size).toNat
          (if uniform_draw (rng.draws rng.pos) < s.infectiousness then 1 else 0),
          rng.skip 1)) ∧
    (∀ other : List Int, other.length = (size * size).toNat →
      peek other (y + x * size) = some 0 →
      (∀ a b, ((a, b) = (x - 1, y) ∨ (a, b) = (x + 1, y) ∨ (a, b) = (x, y - 1) ∨
        (a, b) = (x, y + 1)) → 0 ≤ a → a < size → 0 ≤ b → b < size →
        peek other (b + a * size) = peek current (b + a * size)) →
      advance_state other next s x y size rng = advance_state current next s x y size rng) := by
  obtain ⟨hno, hyes⟩ := next_value_healthy s current x y size rng hx0 hx hy0 hy hb hcl hpeek
  refine ⟨?_, ?_, ?_⟩
  · intro h
    rw [advance_state_in_range current next s x y size rng hx0 hx hy0 hy hb hnl, hno h]
    rfl
  · intro h
    rw [advance_state_in_range current next s x y size rng hx0 hx hy0 hy hb hnl, hyes h]
    rfl
  · intro other hol hop hsame
    obtain ⟨hno', hyes'⟩ := next_value_healthy s other x y size rng hx0 hx hy0 hy hb hol hop
    have hiff := has_infected_neighbour_congr current other x y size hsame
    rw [advance_state_in_range current next s x y size rng hx0 hx hy0 hy hb hnl,
      advance_state_in_range other next s x y size rng hx0 hx hy0 hy hb hnl]
    by_cases h : has_infected_neighbour current x y size
    · rw [hyes h, hyes' (hiff.mpr h)]
    · rw [hno h, hno' (fun h' => h (hiff.mp h'))]

/-- Instance of `healthy_transition`: the corner `(0, 0)` of a 3×3 grid whose
only infected cell is `(0, 1)`. -/
theorem healthy_transition_witness :
    advance_state [0, 1, 0, 0, 0, 0, 0, 0, 0] (malloc 9) demo_settings 0 0 3 zero_rng =
      some ((malloc 9).set (0 + 0 * 3 : Int).toNat
        (if uniform_draw (zero_rng.draws zero_rng.pos) < demo_settings.infectiousness
          then 1 else 0), zero_rng.skip 1) :=
  (healthy_transition demo_settings [0, 1, 0, 0, 0, 0, 0, 0, 0] (malloc 9) 0 0 3 zero_rng
    (by decide) (by decide) (by decide) (by decide) (by decide) (by decide) (by decide)
    (by decide)).2.1
    ⟨0, 1, 1, Or.inr (Or.inr (Or.inr rfl)), by decide, by decide, by decide, by decide,
      by decide, by decide⟩

theorem step_inv_unique (s : settings) (state : List Int) (rng : Rng) (a b : List Int × Rng)
    (ha : step_inv s state rng state.length a) (hb : step_inv s state rng state.length b) :
    a = b := by
  obtain ⟨hal, har, hac⟩ := ha
  obtain ⟨hbl, hbr, hbc⟩ := hb
  apply Prod.ext
  · apply List.ext_getElem? 
    intro k
    by_cases hk : k < state.length
    · obtain ⟨v, hv, hnv⟩ := hac k hk
      obtain ⟨w, hw, hnw⟩ := hbc k hk
      rw [hnv] at hnw
      cases hnw
      rw [hv, hw]
    · rw [List.getElem?_eq_none (by omega), List.getElem?_eq_none (by omega)]
  · rw [har, hbr]

theorem simulation_step_flat (s : settings) (state : List Int) (rng : Rng)
    (hdim : 0 ≤ s.simulation_grid_dimension)
    (hb : s.simulation_grid_dimension * s.simulation_grid_dimension ≤ INT_MAX)
    (hlen : state.length = (s.simulation_grid_dimension * s.simulation_grid_dimension).toNat) :
    simulation_step s state rng =
      (List.range state.length).foldlM
        (fun (acc : List Int × Rng) (k : Nat) =>
          advance_state state acc.1 s ((k / s.simulation_grid_dimension.toNat : Nat) : Int)
            ((k % s.simulation_grid_dimension.toNat : Nat) : Int) s.simulation_grid_dimension
            acc.2)
        (malloc (s.simulation_grid_dimension * s.simulation_grid_dimension), rng) := by
  obtain ⟨acc, hacc, hinv⟩ := simulation_step_trace s state rng hdim hb hlen
  have hn : state.length = s.simulation_grid_dimension.toNat * s.simulation_grid_dimension.toNat := by
    rw [hlen, toNat_mul_self _ hdim]
  have hflat := foldlM_range_inv
    (fun (acc : List Int × Rng) (k : Nat) =>
      advance_state state acc.1 s ((k / s.simulation_grid_dimension.toNat : Nat) : Int)
        ((k % s.simulation_grid_dimension.toNat : Nat) : Int) s.simulation_grid_dimension acc.2)
    (fun k acc => step_inv s state rng k acc) state.length
    (malloc (s.simulation_grid_dimension * s.simulation_grid_dimension), rng)
    (by
      refine ⟨?_, ?_, ?_⟩
      · simp [malloc, hlen]
      · simp [rng_before]
      · intro k hk
        simp at hk)
    (by
      intro k a hk ha
      rw [hn] at hk
      have hd : 0 < s.simulation_grid_dimension.toNat := by
        rcases Nat.eq_zero_or_pos s.simulation_grid_dimension.toNat with h | h
        · rw [h] at hk; simp at hk
        · exact h
      have hcell := step_inv_cell s state rng hdim hb hlen (k / s.simulation_grid_dimension.toNat)
        (k % s.simulation_grid_dimension.toNat) (Nat.div_lt_of_lt_mul hk) (Nat.mod_lt _ hd) a
        (by rw [Nat.mod_add_div']; exact ha)
      obtain ⟨a', ha', hinv'⟩ := hcell
      refine ⟨a', ha', ?_⟩
      rw [show k % s.simulation_grid_dimension.toNat + 1
          + k / s.simulation_grid_dimension.toNat * s.simulation_grid_dimension.toNat
        = k % s.simulation_grid_dimension.toNat
          + k / s.simulation_grid_dimension.toNat * s.simulation_grid_dimension.toNat + 1 by omega,
        Nat.mod_add_div'] at hinv'
      exact hinv')
  obtain ⟨acc', hacc', hinv'⟩ := hflat
  rw [hacc, hacc', step_inv_unique s state rng acc acc' hinv hinv']

/-- C6, as stated, fails for `dim = 46341`, where `dim*dim` exceeds `INT_MAX`:
on the grid of `dim*dim` Healthy cells `simulation_step` returns no grid,
because the index `y + x*size` of `advance_state` leaves the range of `int`
(already for the cell `(46340, 46340)`, for which `advance_state` has no
result whatever the buffers hold). -/
theorem synchronous_update_counterexample :
    (1 : Int) ≤ large_settings.simulation_grid_dimension ∧
    (large_grid 0).length = (large_settings.simulation_grid_dimension
      * large_settings.simulation_grid_dimension).toNat ∧
    simulation_step large_settings (large_grid 0) max_rng = none ∧
    advance_state (large_grid 0) (large_grid 0) large_settings 46340 46340
      large_settings.simulation_grid_dimension max_rng = none :=
  ⟨by decide, large_grid_length 0, simulation_step_large _ _ _ rfl, advance_state_large _ _ _ _⟩

/-- C6, amended.  Synchronous whole-grid update, for `dim*dim ≤ INT_MAX`.  For
a grid `state` of `dim*dim` cells, `simulation_step` returns a grid `g` of the
same size, and there is a chain of generator states `rs 0 = rng, rs 1, …` such
that for every cell `(i, j)`, with `k = j + i*dim` its row-major rank,
`advance_state` run on the ORIGINAL grid `state` from generator state `rs k`,
into any buffer `next` of the right size (so whatever has been written
before), writes only `next[k]`, ends in generator state `rs (k+1)`, and the
value written is `g[k]`; the final generator state is `rs (dim*dim)`.  The
whole step is the sequence of exactly `dim*dim` such calls, for
`k = 0, …, dim*dim - 1` in this order.  The current grid is an argument of
`advance_state` and no part of its result. -/
theorem synchronous_update (s : settings) (state : List Int) (rng : Rng)
    (hdim : 0 ≤ s.simulation_grid_dimension)
    (hb : s.simulation_grid_dimension * s.simulation_grid_dimension ≤ INT_MAX)
    (hlen : state.length = (s.simulation_grid_dimension * s.simulation_grid_dimension).toNat) :
    ∃ (rs : Nat → Rng) (g : List Int), rs 0 = rng ∧
      simulation_step s state rng = some (g, rs state.length) ∧
      g.length = state.length ∧
      (∀ (i j : Nat) (next : List Int), i < s.simulation_grid_dimension.toNat →
        j < s.simulation_grid_dimension.toNat → next.length = state.length →
        ∃ v, advance_state state next s (i : Int) (j : Int) s.simulation_grid_dimension
            (rs (j + i * s.simulation_grid_dimension.toNat))
          = some (next.set (j + i * s.simulation_grid_dimension.toNat) v,
              rs (j + i * s.simulation_grid_dimension.toNat + 1)) ∧
          g[j + i * s.simulation_grid_dimension.toNat]? = some v) ∧
      simulation_step s state rng =
        (List.range state.length).foldlM
          (fun (acc : List Int × Rng) (k : Nat) =>
            advance_state state acc.1 s ((k / s.simulation_grid_dimension.toNat : Nat) : Int)
              ((k % s.simulation_grid_dimension.toNat : Nat) : Int) s.simulation_grid_dimension
              acc.2)
          (malloc (s.simulation_grid_dimension * s.simulation_grid_dimension), rng) := by
  obtain ⟨acc, hacc, hl, hr, hcells⟩ := simulation_step_trace s state rng hdim hb hlen
  refine ⟨rng_before state s rng, acc.1, rfl, ?_, hl, ?_,
    simulation_step_flat s state rng hdim hb hlen⟩
  · rw [hacc, ← hr]
  · intro i j next hi hj hnl
    have hn : state.length
        = s.simulation_grid_dimension.toNat * s.simulation_grid_dimension.toNat := by
      rw [hlen, toNat_mul_self _ hdim]
    have hk : j + i * s.simulation_grid_dimension.toNat < state.length := by
      rw [hn]; exact cell_index_lt _ i j hi hj
    obtain ⟨v, hv, hnv⟩ := hcells _ hk
    refine ⟨v, ?_, hv⟩
    obtain ⟨d, hd⟩ := Int.eq_ofNat_of_zero_le hdim
    rw [hd] at hnv hi hj hk hb hlen ⊢
    simp only [Int.toNat_natCast] at hnv hi hj hk ⊢
    have hdiv : (j + i * d) / d = i := by
      rw [Nat.add_mul_div_right _ _ (by omega), Nat.div_eq_of_lt hj, Nat.zero_add]
    have hmod : (j + i * d) % d = j := by
      rw [Nat.add_mul_mod_self_right, Nat.mod_eq_of_lt hj]
    rw [hdiv, hmod] at hnv
    have hidx : (j : Int) + (i : Int) * (d : Int) = ((j + i * d : Nat) : Int) := by
      push_cast; ring
    have hadv := advance_state_in_range state next s (i : Int) (j : Int) (d : Int)
      (rng_before state s rng (j + i * d))
      (Int.natCast_nonneg i) (by exact_mod_cast hi) (Int.natCast_nonneg j)
      (by exact_mod_cast hj) hb (by rw [hnl, hlen])
    rw [hnv, hidx, Int.toNat_natCast] at hadv
    exact hadv

/-- Instance of `synchronous_update`: the seeded 3×3 grid; the cell `(0, 1)` of
the new grid is what `advance_state` writes for it into an empty buffer. -/
theorem synchronous_update_witness :
    ∃ (g : List Int) (r r1 r2 : Rng) (v : Int),
      simulation_step demo_settings [0, 0, 0, 0, 1, 0, 0, 0, 0] zero_rng = some (g, r) ∧
      g.length = [0, 0, 0, 0, 1, 0, 0, 0, 0].length ∧
      advance_state [0, 0, 0, 0, 1, 0, 0, 0, 0] (malloc 9) demo_settings 0 1 3 r1
        = some ((malloc 9).set 1 v, r2) ∧
      g[1]? = some v := by
  obtain ⟨rs, g, _, hg, hl, hcell, _⟩ :=
    synchronous_update demo_settings [0, 0, 0, 0, 1, 0, 0, 0, 0] zero_rng (by decide) (by decide)
      (by decide)
  obtain ⟨v, hv, hgv⟩ := hcell 0 1 (malloc 9) (by decide) (by decide) (by decide)
  exact ⟨g, _, _, _, v, hg, hl, hv, hgv⟩

theorem plot_series_isSome (offx offy width height total len : Int) (i : Nat) (h : List Int)
    (hh : len.toNat ≤ h.length) (htot : 0 < total) :
    ∃ px, plot_series offx offy width height total len i h = some px := by
  have hfold := foldlM_range_inv
    (fun (px : List Pixel) (j : Nat) =>
      if (j : Int) ≥ int_sub len width then
        match peek h (j : Int) with
        | none => none
        | some v =>
          match plot_pixel offx offy width height total len i j v with
          | none => none
          | some p => some (px ++ [p])
      else some px)
    (fun _ _ => True) len.toNat [] trivial
    (by
      intro m px hm _
      by_cases hc : (m : Int) ≥ int_sub len width
      · have hget : h[m]? = some h[m] := List.getElem?_eq_getElem (by omega)
        simp only [if_pos hc, peek_natCast, hget, plot_pixel, int_div_pos _ _ htot]
        exact ⟨_, rfl, trivial⟩
      · simp only [if_neg hc]
        exact ⟨_, rfl, trivial⟩)
  obtain ⟨px, hpx, _⟩ := hfold
  exact ⟨px, hpx⟩

theorem hist_block_length (s : settings) (st : PlotState) (hwf : plot_wf s st)
    (h : Option (List Int)) (hmem : h ∈ st.hist) :
    (hist_block s h).length = s.steplimit.toNat := by
  cases h with
  | none => simp [hist_block, malloc]
  | some l => exact hwf.2.2.2 l hmem

theorem grow_len (s : settings) (st : PlotState) (step : Bool) (hwf : plot_wf s st)
    (hsl : s.steplimit ≤ INT_MAX) :
    (if (decide (st.len < s.steplimit) && step) = true then int_add st.len 1 else st.len)
      = if (decide (st.len < s.steplimit) && step) = true then st.len + 1 else st.len := by
  by_cases hg : (decide (st.len < s.steplimit) && step) = true
  · have hlt : st.len < s.steplimit := by
      simp only [Bool.and_eq_true, decide_eq_true_eq] at hg
      exact hg.1
    have h0 := hwf.1
    rw [if_pos hg, if_pos hg]
    apply int_add_eq
    · unfold INT_MIN; omega
    · omega
  · rw [if_neg hg, if_neg hg]

theorem grow_poke (s : settings) (st : PlotState) (step : Bool) (hwf : plot_wf s st)
    (hsl : s.steplimit ≤ INT_MAX) (h : Option (List Int)) (hmem : h ∈ st.hist) (c : Int) :
    (if (decide (st.len < s.steplimit) && step) = true then
        poke (hist_block s h)
          (int_sub (if (decide (st.len < s.steplimit) && step) = true then st.len + 1
            else st.len) 1) c
      else some (hist_block s h))
      = some (new_block s st (decide (st.len < s.steplimit) && step) h c) := by
  have hbl := hist_block_length s st hwf h hmem
  obtain ⟨h0, h1, _, _⟩ := hwf
  by_cases hg : (decide (st.len < s.steplimit) && step) = true
  · have hlt : st.len < s.steplimit := by
      simp only [Bool.and_eq_true, decide_eq_true_eq] at hg
      exact hg.1
    have hsub : int_sub (st.len + 1) 1 = st.len := by
      rw [int_sub_eq _ _ (by unfold INT_MIN; omega) (by omega)]
      ring
    simp only [hg, if_true, new_block, hsub]
    unfold poke
    rw [if_pos ⟨h0, by rw [hbl]; omega⟩]
  · simp only [hg, new_block]
    simp only [Bool.false_eq_true, if_false]

theorem new_block_length (s : settings) (st : PlotState) (hwf : plot_wf s st) (grow : Bool)
    (h : Option (List Int)) (hmem : h ∈ st.hist) (c : Int) :
    (new_block s st grow h c).length = s.steplimit.toNat := by
  have hbl := hist_block_length s st hwf h hmem
  unfold new_block
  split_ifs
  · rw [List.length_set, hbl]
  · exact hbl

theorem new_len_le (s : settings) (st : PlotState) (step : Bool) (hwf : plot_wf s st) :
    0 ≤ (if (decide (st.len < s.steplimit) && step) = true then st.len + 1 else st.len) ∧
    (if (decide (st.len < s.steplimit) && step) = true then st.len + 1 else st.len)
      ≤ s.steplimit := by
  obtain ⟨h0, h1, _, _⟩ := hwf
  by_cases hg : (decide (st.len < s.steplimit) && step) = true
  · have hlt : st.len < s.steplimit := by
      simp only [Bool.and_eq_true, decide_eq_true_eq] at hg
      exact hg.1
    rw [if_pos hg]
    omega
  · rw [if_neg hg]
    omega

theorem plot_graph_of_series (offx offy width height healthy infected cured dead : Int)
    (s : settings) (step : Bool) (st : PlotState) (a b c d : Option (List Int))
    (hst : st.hist = [a, b, c, d]) (hwf : plot_wf s st) (hsl : s.steplimit ≤ INT_MAX)
    (pa pb pc pd : List Pixel)
    (ha : plot_series offx offy width height (plot_total healthy infected cured dead)
        (if (decide (st.len < s.steplimit) && step) = true then st.len + 1 else st.len) 0
        (new_block s st (decide (st.len < s.steplimit) && step) a healthy) = some pa)
    (hb : plot_series offx offy width height (plot_total healthy infected cured dead)
        (if (decide (st.len < s.steplimit) && step) = true then st.len + 1 else st.len) 1
        (new_block s st (decide (st.len < s.steplimit) && step) b infected) = some pb)
    (hc : plot_series offx offy width height (plot_total healthy infected cured dead)
        (if (decide (st.len < s.steplimit) && step) = true then st.len + 1 else st.len) 2
        (new_block s st (decide (st.len < s.steplimit) && step) c cured) = some pc)
    (hd : plot_series offx offy width height (plot_total healthy infected cured dead)
        (if (decide (st.len < s.steplimit) && step) = true then st.len + 1 else st.len) 3
        (new_block s st (decide (st.len < s.steplimit) && step) d dead) = some pd) :
    plot_graph offx offy width height healthy infected cured dead s step st
      = some (⟨if (decide (st.len < s.steplimit) && step) = true then st.len + 1 else st.len,
          [some (new_block s st (decide (st.len < s.steplimit) && step) a healthy),
           some (new_block s st (decide (st.len < s.steplimit) && step) b infected),
           some (new_block s st (decide (st.len < s.steplimit) && step) c cured),
           some (new_block s st (decide (st.len < s.steplimit) && step) d dead)]⟩,
        pa ++ pb ++ pc ++ pd) := by
  have ha1 := grow_poke s st step hwf hsl a (by simp [hst]) healthy
  have hb1 := grow_poke s st step hwf hsl b (by simp [hst]) infected
  have hc1 := grow_poke s st step hwf hsl c (by simp [hst]) cured
  have hd1 := grow_poke s st step hwf hsl d (by simp [hst]) dead
  unfold plot_graph
  simp only [show List.range 4 = [0, 1, 2, 3] from rfl, List.foldlM_cons, List.foldlM_nil, hst,
    grow_len s st step hwf hsl]
  generalize hgrow : (decide (st.len < s.steplimit) && step) = grow at *
  generalize hlen : (if grow = true then st.len + 1 else st.len) = len1 at *
  simp only [List.getElem?_cons_zero, List.getElem?_cons_succ, Option.bind_eq_bind,
    Option.some_bind, ha1, ha, List.set_cons_zero, List.set_cons_succ, hb1, hb, hc1, hc,
    hd1, hd, Option.pure_def, List.nil_append]

theorem plot_graph_state (offx offy width height healthy infected cured dead : Int)
    (s : settings) (step : Bool) (st : PlotState) (a b c d : Option (List Int))
    (hst : st.hist = [a, b, c, d]) (hwf : plot_wf s st) (hsl : s.steplimit ≤ INT_MAX)
    (htot : 0 < plot_total healthy infected cured dead) :
    ∃ px, plot_graph offx offy width height healthy infected cured dead s step st
      = some (⟨if (decide (st.len < s.steplimit) && step) = true then st.len + 1 else st.len,
          [some (new_block s st (decide (st.len < s.steplimit) && step) a healthy),
           some (new_block s st (decide (st.len < s.steplimit) && step) b infected),
           some (new_block s st (decide (st.len < s.steplimit) && step) c cured),
           some (new_block s st (decide (st.len < s.steplimit) && step) d dead)]⟩, px) := by
  have hle := (new_len_le s st step hwf).2
  have hser : ∀ (i : Nat) (h : Option (List Int)) (v : Int), h ∈ st.hist →
      ∃ px, plot_series offx offy width height (plot_total healthy infected cured dead)
        (if (decide (st.len < s.steplimit) && step) = true then st.len + 1 else st.len) i
        (new_block s st (decide (st.len < s.steplimit) && step) h v) = some px := by
    intro i h v hmem
    apply plot_series_isSome _ _ _ _ _ _ _ _ _ htot
    rw [new_block_length s st hwf _ h hmem v]
    omega
  obtain ⟨pa, ha⟩ := hser 0 a healthy (by simp [hst])
  obtain ⟨pb, hb⟩ := hser 1 b infected (by simp [hst])
  obtain ⟨pc, hc⟩ := hser 2 c cured (by simp [hst])
  obtain ⟨pd, hd⟩ := hser 3 d dead (by simp [hst])
  exact ⟨_, plot_graph_of_series offx offy width height healthy infected cured dead s step st
    a b c d hst hwf hsl pa pb pc pd ha hb hc hd⟩

theorem hist_four (st : PlotState) (h : st.hist.length = 4) :
    ∃ a b c d, st.hist = [a, b, c, d] := by
  rcases hl : st.hist with _ | ⟨a, _ | ⟨b, _ | ⟨c, _ | ⟨d, _ | ⟨e, t⟩⟩⟩⟩⟩ <;>
    rw [hl] at h <;> simp at h
  exact ⟨a, b, c, d, rfl⟩

theorem new_block_grow (s : settings) (st : PlotState) (hwf : plot_wf s st)
    (h : Option (List Int)) (hmem : h ∈ st.hist) (c : Int) (hlt : st.len < s.steplimit) :
    (new_block s st true h c).length = s.steplimit.toNat ∧
      (new_block s st true h c)[st.len.toNat]? = some c ∧
      ∀ old, h = some old → ∀ j, j ≠ st.len.toNat → (new_block s st true h c)[j]? = old[j]? := by
  have hbl := hist_block_length s st hwf h hmem
  obtain ⟨h0, _, _, _⟩ := hwf
  simp only [new_block, if_true]
  refine ⟨by rw [List.length_set, hbl], ?_, ?_⟩
  · rw [List.getElem?_set_self (by rw [hbl]; omega)]
  · intro old hold j hj
    subst hold
    rw [List.getElem?_set_ne (fun h => hj h.symm)]
    rfl

/-- C7, as stated, fails for counts whose sum is 0: the recording call on the
initial state divides by `total = 0` when it draws the entry just stored
(`hist[i][j]*height/total`), so the call has no result. -/
theorem history_record_counterexample :
    plot_wf demo_settings plot_init ∧ plot_init.len < demo_settings.steplimit ∧
    plot_graph 0 0 100 90 0 0 0 0 demo_settings true plot_init = none := by
  decide

/-- C7, amended.  History record: in a well-formed state of `plot_graph`
(`0 ≤ len ≤ steplimit`, four pointers, every allocated series of `steplimit`
cells), with `steplimit ≤ INT_MAX`, a recording call (`step = true`) with
counts `healthy, infected, cured, dead` whose sum `total` is positive returns,
and if `len < steplimit` the new length is `len + 1`, the write index
`len' - 1` lies in `[0, steplimit)`, cell `len` of each of the four series
holds the corresponding count and every other cell of a series that was
stored before the call is unchanged; if `len = steplimit` the length and
every stored series are unchanged. -/
theorem history_record (offx offy width height healthy infected cured dead : Int)
    (s : settings) (st : PlotState) (hwf : plot_wf s st) (hsl : s.steplimit ≤ INT_MAX)
    (htot : 0 < plot_total healthy infected cured dead) :
    ∃ st1 px, plot_graph offx offy width height healthy infected cured dead s true st
        = some (st1, px) ∧ st1.hist.length = 4 ∧
      (st.len < s.steplimit →
        st1.len = st.len + 1 ∧ 0 ≤ int_sub st1.len 1 ∧ int_sub st1.len 1 < s.steplimit ∧
        ∀ (i : Nat) (c : Int), [healthy, infected, cured, dead][i]? = some c →
          ∃ (blk : List Int), st1.hist[i]? = some (some blk) ∧
            blk.length = s.steplimit.toNat ∧ blk[st.len.toNat]? = some c ∧
            ∀ old, st.hist[i]? = some (some old) →
              ∀ j, j ≠ st.len.toNat → blk[j]? = old[j]?) ∧
      (st.len = s.steplimit →
        st1.len = st.len ∧
        ∀ (i : Nat) (old : List Int), st.hist[i]? = some (some old) →
          st1.hist[i]? = some (some old)) := by
  obtain ⟨a, b, c, d, hst⟩ := hist_four st hwf.2.2.1
  obtain ⟨px, heq⟩ := plot_graph_state offx offy width height healthy infected cured dead s true
    st a b c d hst hwf hsl htot
  refine ⟨_, _, heq, rfl, ?_, ?_⟩
  · intro hlt
    have hg : (decide (st.len < s.steplimit) && true) = true := by simp [hlt]
    simp only [hg, if_true]
    have h0 := hwf.1
    have hsub : int_sub (st.len + 1) 1 = st.len := by
      rw [int_sub_eq _ _ (by unfold INT_MIN; omega) (by omega)]
      ring
    rw [hsub]
    refine ⟨trivial, h0, hlt, ?_⟩
    intro i v hv
    have hmem : ∀ h, h ∈ [a, b, c, d] → h ∈ st.hist := fun h hh => by rw [hst]; exact hh
    match i, hv with
    | 0, hv =>
      cases hv
      obtain ⟨h1, h2, h3⟩ := new_block_grow s st hwf a (hmem a (by simp)) healthy hlt
      exact ⟨_, by simp, h1, h2, fun old ho => h3 old (by simpa [hst] using ho)⟩
    | 1, hv =>
      cases hv
      obtain ⟨h1, h2, h3⟩ := new_block_grow s st hwf b (hmem b (by simp)) infected hlt
      exact ⟨_, by simp, h1, h2, fun old ho => h3 old (by simpa [hst] using ho)⟩
    | 2, hv =>
      cases hv
      obtain ⟨h1, h2, h3⟩ := new_block_grow s st hwf c (hmem c (by simp)) cured hlt
      exact ⟨_, by simp, h1, h2, fun old ho => h3 old (by simpa [hst] using ho)⟩
    | 3, hv =>
      cases hv
      obtain ⟨h1, h2, h3⟩ := new_block_grow s st hwf d (hmem d (by simp)) dead hlt
      exact ⟨_, by simp, h1, h2, fun old ho => h3 old (by simpa [hst] using ho)⟩
    | n + 4, hv => simp at hv
  · intro hfull
    have hg : (decide (st.len < s.steplimit) && true) = false := by simp [hfull]
    simp only [hg, Bool.false_eq_true, if_false, new_block, true_and]
    intro i old ho
    rw [hst] at ho
    match i, ho with
    | 0, ho =>
      have : a = some old := by simpa using ho
      subst this
      simp [hist_block]
    | 1, ho =>
      have : b = some old := by simpa using ho
      subst this
      simp [hist_block]
    | 2, ho =>
      have : c = some old := by simpa using ho
      subst this
      simp [hist_block]
    | 3, ho =>
      have : d = some old := by simpa using ho
      subst this
      simp [hist_block]
    | n + 4, ho => simp at ho

/-- Instance of `history_record`: `steplimit = 5`, two entries stored, a third
one recorded; the two stored entries of the first series stay. -/
theorem history_record_witness :
    ∃ st1 px blk, plot_graph 0 0 100 90 7 2 0 0 demo_settings true
        ⟨2, [some [9, 8, 0, 0, 0], some [0, 1, 0, 0, 0], some [0, 0, 0, 0, 0],
          some [0, 0, 0, 0, 0]]⟩ = some (st1, px) ∧
      st1.len = 2 + 1 ∧ 0 ≤ int_sub st1.len 1 ∧ int_sub st1.len 1 < demo_settings.steplimit ∧
      st1.hist[0]? = some (some blk) ∧ blk[2]? = some 7 ∧ blk[0]? = some 9 ∧
      blk[1]? = some 8 := by
  obtain ⟨st1, px, h, _, hgrow, _⟩ := history_record 0 0 100 90 7 2 0 0 demo_settings
    ⟨2, [some [9, 8, 0, 0, 0], some [0, 1, 0, 0, 0], some [0, 0, 0, 0, 0],
      some [0, 0, 0, 0, 0]]⟩ (by decide) (by decide) (by decide)
  obtain ⟨h1, h2, h3, h4⟩ := hgrow (by decide)
  obtain ⟨blk, hb1, _, hb3, hb4⟩ := h4 0 7 rfl
  exact ⟨st1, px, blk, h, h1, h2, h3, hb1, hb3, hb4 [9, 8, 0, 0, 0] rfl 0 (by decide),
    hb4 [9, 8, 0, 0, 0] rfl 1 (by decide)⟩

/-- The example of the specification evaluated: with `steplimit = 5` the state
after 5, 6, …, 10 recording calls is the same, holding the tallies of the
calls 1 to 5, and a call with width 100 draws the five entries of each series
at the abscissas 0 to 4. -/
theorem history_frozen_example :
    (∀ k ∈ [5, 6, 7, 8, 9, 10],
      record_all 0 0 100 90 demo_settings (demo_tallies.take k) plot_init
        = some ⟨5, [some [9, 8, 7, 6, 5], some [0, 1, 2, 3, 4], some [0, 0, 0, 0, 0],
            some [0, 0, 0, 0, 0]]⟩) ∧
    (plot_graph 0 0 100 90 0 9 0 0 demo_settings true
        ⟨5, [some [9, 8, 7, 6, 5], some [0, 1, 2, 3, 4], some [0, 0, 0, 0, 0],
          some [0, 0, 0, 0, 0]]⟩).map (fun p => p.2.map (fun q => (q.colour, q.x)))
      = some [(0, 0), (0, 1), (0, 2), (0, 3), (0, 4), (1, 0), (1, 1), (1, 2), (1, 3), (1, 4),
          (2, 0), (2, 1), (2, 2), (2, 3), (2, 4), (3, 0), (3, 1), (3, 2), (3, 3), (3, 4)] := by
  decide

/-- The end-to-end scenario when every draw is below `RAND_MAX`: the first
step turns the four neighbours of the centre into Infected(1), the centre into
Infected(2), leaves the corners Healthy, and the tally is 4, 5, 0, 0. -/
theorem first_step_below_max (rng : Rng) (h : ∀ k, rng.draws k < RAND_MAX) :
    init_simulation demo_settings (malloc 9) = some [0, 0, 0, 0, 1, 0, 0, 0, 0] ∧
    simulation_step demo_settings [0, 0, 0, 0, 1, 0, 0, 0, 0] rng
      = some ([0, 1, 0, 1, 2, 1, 0, 1, 0], rng.skip 5) ∧
    tally_state [0, 1, 0, 1, 2, 1, 0, 1, 0] 3 = some ⟨4, 5, 0, 0⟩ := by
  refine ⟨by decide, ?_, by decide⟩
  have hc1 : ∀ k, chance 1 (rng.skip k) = (true, rng.skip (k + 1)) := by
    intro k
    rw [chance_one (rng.skip k) (h _), skip_skip]
  have hc0 : ∀ k, chance 0 (rng.skip k) = (false, rng.skip (k + 1)) := by
    intro k
    rw [chance_zero (rng.skip k), skip_skip]
  have hr : rng = rng.skip 0 := rfl
  conv_lhs => rw [hr]
  have h1 : Int.toNat 3 = 3 := rfl
  have h2 : ((3 : Int) * 3).toNat = 9 := rfl
  simp only [simulation_step, demo_settings, malloc]
  rw [h1, h2]
  simp only [List.range, List.range.loop, List.foldlM_cons, List.foldlM_nil, List.replicate]
  simp [advance_state, peek, poke, neighbour_infected, isinfected, cAnd, cOr, CURED_STATE,
    DEAD_STATE, hc1, hc0, int_add, int_sub, int_mul, wrap_int_def]

/-- C9. The end-to-end scenario at the draw `RAND_MAX`: with infectiousness
1.0, lethality 0, immunization chance 0, `max_infected_value = 10` and the
3×3 grid of `init_simulation`, when `rand()` returns `RAND_MAX` the step
leaves all four neighbours of the centre Healthy, and the tally is
healthy 8, infected 1, not 4 and 5. -/
theorem first_step_at_rand_max :
    init_simulation demo_settings (malloc 9) = some [0, 0, 0, 0, 1, 0, 0, 0, 0] ∧
    simulation_step demo_settings [0, 0, 0, 0, 1, 0, 0, 0, 0] max_rng
      = some ([0, 0, 0, 0, 2, 0, 0, 0, 0], max_rng.skip 5) ∧
    tally_state [0, 0, 0, 0, 2, 0, 0, 0, 0] 3 = some ⟨8, 1, 0, 0⟩ := by
  refine ⟨by decide, ?_, by decide⟩
  have hc1 : ∀ k, chance 1 (max_rng.skip k) = (false, max_rng.skip (k + 1)) := by
    intro k
    rw [chance_one_max (max_rng.skip k) rfl, skip_skip]
  have hc0 : ∀ k, chance 0 (max_rng.skip k) = (false, max_rng.skip (k + 1)) := by
    intro k
    rw [chance_zero (max_rng.skip k), skip_skip]
  have hr : max_rng = max_rng.skip 0 := rfl
  conv_lhs => rw [hr]
  have h1 : Int.toNat 3 = 3 := rfl
  have h2 : ((3 : Int) * 3).toNat = 9 := rfl
  simp only [simulation_step, demo_settings, malloc]
  rw [h1, h2]
  simp only [List.range, List.range.loop, List.foldlM_cons, List.foldlM_nil, List.replicate]
  simp [advance_state, peek, poke, neighbour_infected, isinfected, cAnd, cOr, CURED_STATE,
    DEAD_STATE, hc1, hc0, int_add, int_sub, int_mul, wrap_int_def]

theorem countP_le_one_of_single (p : Int → Bool) :
    ∀ (l : List Int) (c : Nat),
      (∀ k v, k ≠ c → l[k]? = some v → p v = false) → l.countP p ≤ 1 := by
  intro l
  induction l with
  | nil => intro c _; simp
  | cons x xs ih =>
    intro c h
    cases c with
    | zero =>
      have hxs : xs.countP p = 0 := by
        rw [List.countP_eq_zero]
        intro a ha
        obtain ⟨k, hk⟩ := List.mem_iff_getElem?.mp ha
        have := h (k + 1) a (by omega) (by simpa using hk)
        simp [this]
      rw [List.countP_cons, hxs]
      split_ifs <;> omega
    | succ c' =>
      have hx : p x = false := h 0 x (by omega) (by simp)
      have := ih c' (fun k v hk hv => h (k + 1) v (by omega) (by simpa using hv))
      rw [List.countP_cons, hx]
      simpa using this

theorem next_value_no_infection (current : List Int) (s : settings) (x y size : Int) (rng : Rng)
    (hinf : s.infectiousness = 0)
    (hpeek : peek current (int_add y (int_mul x size)) = some 0)
    (p : Int × Rng) (hp : next_value current s x y size rng = some p) : p.1 = 0 := by
  have hne : ¬((0 : Int) = CURED_STATE ∨ (0 : Int) = DEAD_STATE) := by
    unfold CURED_STATE DEAD_STATE; omega
  simp only [next_value, hpeek, if_neg hne, hinf, chance_zero, ne_eq, not_true_eq_false,
    if_false, Bool.false_eq_true] at hp
  rcases hn : neighbour_infected current x y size with _ | b
  · simp [hn] at hp
  · cases b <;> simp only [hn] at hp <;> cases hp <;> rfl

/-- C10, as stated, fails for `dim = 46341`, where `dim*dim` exceeds
`INT_MAX`: with `infectiousness = 0`, `init_simulation` builds the grid and the
first `simulation_step` has no result, because the index `y + x*size` leaves
the range of `int`. -/
theorem no_spontaneous_infection_counterexample :
    large_settings.infectiousness = 0 ∧
    ∃ g0, init_simulation large_settings (malloc (46341 * 46341)) = some g0 ∧
      run_steps large_settings 1 g0 max_rng = none := by
  refine ⟨rfl, _, (init_simulation_mid large_settings (malloc (46341 * 46341)) (by decide)
    (by decide) (by rw [malloc, List.length_replicate]; rfl)).1, run_steps_large _ _ _ 0 rfl⟩

/-- C10, amended.  No spontaneous infection: with `infectiousness = 0`,
`dim ≥ 1` and `dim*dim ≤ INT_MAX`, whatever the other settings, the generator
and the number `N` of steps, in the grid obtained from `init_simulation` by
`N` calls of `simulation_step` every cell other than the seeded centre cell is
Healthy (0), and the infected count of `tally_state` is at most 1. -/
theorem no_spontaneous_infection (s : settings) (buf : List Int) (rng : Rng) (N : Nat)
    (hdim : 1 ≤ s.simulation_grid_dimension)
    (hb : s.simulation_grid_dimension * s.simulation_grid_dimension ≤ INT_MAX)
    (hinf : s.infectiousness = 0)
    (hlen : buf.length = (s.simulation_grid_dimension * s.simulation_grid_dimension).toNat) :
    ∃ g0 g r t, init_simulation s buf = some g0 ∧ run_steps s N g0 rng = some (g, r) ∧
      g.length = (s.simulation_grid_dimension * s.simulation_grid_dimension).toNat ∧
      (∀ k, k < g.length → k ≠ centre s.simulation_grid_dimension → g[k]? = some 0) ∧
      tally_state g s.simulation_grid_dimension = some t ∧ t.infected ≤ 1 := by
  have hdim0 : 0 ≤ s.simulation_grid_dimension := le_trans (by decide) hdim
  obtain ⟨hinit, _⟩ := init_simulation_eq s buf hdim hb hlen
  have hstep : ∀ (st : List Int) (r : Rng),
      st.length = (s.simulation_grid_dimension * s.simulation_grid_dimension).toNat →
      (∀ k, k < st.length → k ≠ centre s.simulation_grid_dimension → st[k]? = some 0) →
      ∃ g r', simulation_step s st r = some (g, r') ∧
        g.length = (s.simulation_grid_dimension * s.simulation_grid_dimension).toNat ∧
        (∀ k, k < g.length → k ≠ centre s.simulation_grid_dimension → g[k]? = some 0) := by
    intro st r hl hz
    obtain ⟨g, r', hg, hgl, hcells⟩ := simulation_step_pointwise s st r hdim0 hb hl
      (fun k v => st[k]? = some 0 → v = 0)
      (by
        intro i j r0 p hi hj hp hcell
        exact next_value_no_infection st s i j _ r0 hinf
          (by rw [next_value_cell s st hdim0 hb i j hi hj]; exact hcell) p hp)
    refine ⟨g, r', hg, hgl.trans hl, ?_⟩
    intro k hk hkc
    have hgk : g[k]? = some g[k] := List.getElem?_eq_getElem hk
    rw [hgk, hcells k g[k] hgk (hz k (by rw [← hgl]; exact hk) hkc)]
  obtain ⟨g, r, hg, hgl, hgz⟩ := run_steps_inv s _
    (fun g => ∀ k, k < g.length → k ≠ centre s.simulation_grid_dimension → g[k]? = some 0)
    hstep N
    ((List.replicate (s.simulation_grid_dimension * s.simulation_grid_dimension).toNat 0).set
      (centre s.simulation_grid_dimension) 1) rng (by simp)
    (by
      intro k hk hkc
      rw [List.getElem?_set_ne (fun h => hkc h.symm)]
      rw [List.length_set, List.length_replicate] at hk
      simp [hk])
  refine ⟨_, g, r, tally_of g, hinit, hg, hgl, hgz, tally_state_eq g _ hdim0 hb hgl, ?_⟩
  have hcount := countP_le_one_of_single
    (fun c => decide (c ≠ CURED_STATE ∧ c ≠ DEAD_STATE ∧ c ≠ 0)) g
    (centre s.simulation_grid_dimension)
    (by
      intro k v hk hv
      have hkl : k < g.length := (List.getElem?_eq_some.mp hv).1
      have := hgz k hkl hk
      rw [hv] at this
      cases this
      simp)
  show ((g.countP (fun c => decide (c ≠ CURED_STATE ∧ c ≠ DEAD_STATE ∧ c ≠ 0)) : Nat) : Int) ≤ 1
  exact_mod_cast hcount

/-- Instance of `no_spontaneous_infection`: a 3×3 grid, seven steps, the
corner cell. -/
theorem no_spontaneous_infection_witness :
    ∃ g0 g r t, init_simulation sterile_settings (malloc 9) = some g0 ∧
      run_steps sterile_settings 7 g0 max_rng = some (g, r) ∧
      g[0]? = some 0 ∧
      tally_state g sterile_settings.simulation_grid_dimension = some t ∧ t.infected ≤ 1 := by
  obtain ⟨g0, g, r, t, h1, h2, h3, h4, h5, h6⟩ :=
    no_spontaneous_infection sterile_settings (malloc 9) max_rng 7 (by decide) (by decide) rfl
      (by decide)
  exact ⟨g0, g, r, t, h1, h2, h4 0 (by rw [h3]; decide) (by decide), h5, h6⟩

theorem next_value_progress (current : List Int) (s : settings) (x y size : Int) (rng : Rng)
    (hleth : s.lethality = 0) (himm : s.immunization_chance = 0)
    (hmax : s.max_infected_value < INT_MAX) (n : Int)
    (hpeek : peek current (int_add y (int_mul x size)) = some n) (hn1 : 1 ≤ n)
    (hnm : n ≤ s.max_infected_value) (p : Int × Rng)
    (hp : next_value current s x y size rng = some p) :
    p.1 = min (n + 1) s.max_infected_value := by
  have hne : ¬(n = CURED_STATE ∨ n = DEAD_STATE) := by
    unfold CURED_STATE DEAD_STATE; omega
  have hnz : n ≠ 0 := by omega
  have hadd : int_add n 1 = n + 1 := int_add_eq n 1 (by unfold INT_MIN; omega) (by omega)
  simp only [next_value, hpeek, if_neg hne, if_pos hnz, hleth, himm, chance_zero,
    Bool.false_eq_true, if_false, hadd] at hp
  split_ifs at hp with h <;> cases hp <;> simp only <;> omega

/-- C11, as stated, fails.  With `max_infected_value = INT_MAX`, lethality 0
and immunization chance 0, a cell holding Infected(`INT_MAX`) holds `INT_MIN`
after one `simulation_step`, not Infected(min(n + 1, m)) = Infected(`INT_MAX`):
the sum `current[index]+1` does not fit an `int`.  With `dim = 46341`, where
`dim*dim` exceeds `INT_MAX`, the first `simulation_step` on a grid of
Infected(1) cells has no result. -/
theorem duration_progression_counterexample :
    (int_max_settings.lethality = 0 ∧ int_max_settings.immunization_chance = 0 ∧
      run_steps int_max_settings 1 [2147483647] zero_rng
        = some ([-2147483648], zero_rng.skip 1) ∧
      min ((2147483647 : Int) + ((1 : Nat) : Int)) int_max_settings.max_infected_value
        ≠ -2147483648) ∧
    (large_settings.lethality = 0 ∧ large_settings.immunization_chance = 0 ∧
      (large_grid 1).length = (large_settings.simulation_grid_dimension
        * large_settings.simulation_grid_dimension).toNat ∧
      run_steps large_settings 1 (large_grid 1) zero_rng = none) := by
  refine ⟨⟨rfl, rfl, ?_, by decide⟩, rfl, rfl, large_grid_length 1, run_steps_large _ _ _ 0 rfl⟩
  simp only [run_steps, int_max_simulation_step]

/-- C11, amended.  Duration progression, for `dim*dim ≤ INT_MAX` and
`max_infected_value < INT_MAX`: with `lethality = 0` and
`immunization_chance = 0`, a cell that holds Infected(n),
`1 ≤ n ≤ max_infected_value`, holds Infected(min(n + k, max_infected_value))
after `k` calls of `simulation_step`, for every generator and every `k`: the
duration grows by one per step up to `max_infected_value` and stays there; the
cell never becomes Dead or Cured. -/
theorem duration_progression (s : settings) (k idx : Nat) :
    ∀ (state : List Int) (rng : Rng) (n : Int),
      0 ≤ s.simulation_grid_dimension →
      s.simulation_grid_dimension * s.simulation_grid_dimension ≤ INT_MAX →
      s.max_infected_value < INT_MAX →
      s.lethality = 0 → s.immunization_chance = 0 →
      state.length = (s.simulation_grid_dimension * s.simulation_grid_dimension).toNat →
      state[idx]? = some n → 1 ≤ n → n ≤ s.max_infected_value →
      ∃ g r, run_steps s k state rng = some (g, r) ∧ g.length = state.length ∧
        g[idx]? = some (min (n + (k : Int)) s.max_infected_value) := by
  induction k with
  | zero =>
    intro state rng n _ _ _ _ _ _ hcell _ hnm
    refine ⟨state, rng, rfl, rfl, ?_⟩
    rw [hcell]
    congr 1
    simp only [Nat.cast_zero]
    omega
  | succ j ih =>
    intro state rng n hdim hb hmax hleth himm hlen hcell hn1 hnm
    obtain ⟨g, r, hg, hgl, hcells⟩ := simulation_step_pointwise s state rng hdim hb hlen
      (fun i v => state[i]? = some n → v = min (n + 1) s.max_infected_value)
      (by
        intro i j0 r0 p hi hj hp hc
        exact next_value_progress state s i j0 _ r0 hleth himm hmax n
          (by rw [next_value_cell s state hdim hb i j0 hi hj]; exact hc) hn1 hnm p hp)
    have hidx : idx < g.length := by
      rw [hgl]
      exact (List.getElem?_eq_some.mp hcell).1
    have hgi : g[idx]? = some g[idx] := List.getElem?_eq_getElem hidx
    have hval : g[idx] = min (n + 1) s.max_infected_value := hcells idx g[idx] hgi hcell
    rw [hval] at hgi
    obtain ⟨g', r', hg', hgl', hres⟩ := ih g r (min (n + 1) s.max_infected_value) hdim hb hmax
      hleth himm (hgl.trans hlen) hgi (by omega) (by omega)
    refine ⟨g', r', by simp only [run_steps, hg, hg'], hgl'.trans hgl, ?_⟩
    rw [hres]
    congr 1
    push_cast
    omega

/-- Instance of `duration_progression`: the centre of the 3×3 grid, seeded
with Infected(1), after twelve steps with `max_infected_value = 10`. -/
theorem duration_progression_witness :
    ∃ g r, run_steps demo_settings 12 [0, 0, 0, 0, 1, 0, 0, 0, 0] zero_rng = some (g, r) ∧
      g.length = [0, 0, 0, 0, 1, 0, 0, 0, 0].length ∧
      g[4]? = some (min (1 + ((12 : Nat) : Int)) demo_settings.max_infected_value) :=
  duration_progression demo_settings 12 4 [0, 0, 0, 0, 1, 0, 0, 0, 0] zero_rng 1 (by decide)
    (by decide) (by decide) rfl rfl (by decide) (by decide) (by decide) (by decide)

theorem touched_indices_exact (x y size : Int) (hx0 : 0 ≤ x) (hx : x < size) (hy0 : 0 ≤ y)
    (hy : y < size) (hb : size * size ≤ INT_MAX) :
    touched_indices x y size =
      [y + x * size] ++ (if x > 0 then [y + (x - 1) * size] else []) ++
        (if x < size - 1 then [y + (x + 1) * size] else []) ++
        (if y > 0 then [(y - 1) + x * size] else []) ++
        (if y < size - 1 then [(y + 1) + x * size] else []) := by
  obtain ⟨hxm, hxp, hym, hyp, hsm⟩ := neighbour_exact x y size hx0 hx hy0 hy hb
  unfold touched_indices
  rw [hxm, hxp, hym, hyp, hsm, index_exact x y size hx0 hx hy0 hy hb]
  congr 1
  · congr 1
    · congr 1
      · congr 1
        split_ifs with h
        · rw [index_exact (x - 1) y size (by omega) (by omega) hy0 hy hb]
        · rfl
      · split_ifs with h
        · rw [index_exact (x + 1) y size (by omega) (by omega) hy0 hy hb]
        · rfl
    · split_ifs with h
      · rw [index_exact x (y - 1) size hx0 hx (by omega) (by omega) hb]
      · rfl
  · split_ifs with h
    · rw [index_exact x (y + 1) size hx0 hx (by omega) (by omega) hb]
    · rfl

theorem touched_indices_bounds (x y size : Int) (hx0 : 0 ≤ x) (hx : x < size) (hy0 : 0 ≤ y)
    (hy : y < size) (hb : size * size ≤ INT_MAX) :
    ∀ i ∈ touched_indices x y size, 0 ≤ i ∧ i < size * size := by
  intro i hi
  rw [touched_indices_exact x y size hx0 hx hy0 hy hb] at hi
  simp only [List.mem_append, List.mem_singleton] at hi
  rcases hi with (((h | h) | h) | h) | h
  · subst h; exact index_bounds x y size hx0 hx hy0 hy
  · split_ifs at h with hg
    · simp only [List.mem_singleton] at h
      subst h; exact index_bounds (x - 1) y size (by omega) (by omega) hy0 hy
    · simp at h
  · split_ifs at h with hg
    · simp only [List.mem_singleton] at h
      subst h; exact index_bounds (x + 1) y size (by omega) (by omega) hy0 hy
    · simp at h
  · split_ifs at h with hg
    · simp only [List.mem_singleton] at h
      subst h; exact index_bounds x (y - 1) size hx0 hx (by omega) (by omega)
    · simp at h
  · split_ifs at h with hg
    · simp only [List.mem_singleton] at h
      subst h; exact index_bounds x (y + 1) size hx0 hx (by omega) (by omega)
    · simp at h

theorem cAnd_isinfected_congr (current other : List Int) (g : Prop) [Decidable g]
    (x y size : Int)
    (h : g → peek other (int_add y (int_mul x size)) = peek current (int_add y (int_mul x size))) :
    cAnd (decide g) (isinfected other x y size) = cAnd (decide g) (isinfected current x y size) := by
  by_cases hg : g
  · simp only [cAnd, hg, decide_True, if_true, isinfected, h hg]
  · simp only [cAnd, hg, decide_False, Bool.false_eq_true, if_false]

theorem advance_state_congr (current other next : List Int) (s : settings) (x y size : Int)
    (rng : Rng) (h : ∀ i ∈ touched_indices x y size, peek other i = peek current i) :
    advance_state other next s x y size rng = advance_state current next s x y size rng := by
  have hmem : ∀ i, i ∈ touched_indices x y size → peek other i = peek current i := h
  have h0 : peek other (int_add y (int_mul x size)) = peek current (int_add y (int_mul x size)) :=
    hmem _ (by simp [touched_indices])
  have h1 := cAnd_isinfected_congr current other (x > 0) (int_sub x 1) y size
    (fun hg => hmem _ (by simp [touched_indices, hg]))
  have h2 := cAnd_isinfected_congr current other (x < int_sub size 1) (int_add x 1) y size
    (fun hg => hmem _ (by simp [touched_indices, hg]))
  have h3 := cAnd_isinfected_congr current other (y > 0) x (int_sub y 1) size
    (fun hg => hmem _ (by simp [touched_indices, hg]))
  have h4 := cAnd_isinfected_congr current other (y < int_sub size 1) x (int_add y 1) size
    (fun hg => hmem _ (by simp [touched_indices, hg]))
  have hn : neighbour_infected other x y size = neighbour_infected current x y size := by
    simp only [neighbour_infected, h1, h2, h3, h4]
  simp only [advance_state, h0, hn]

/-- C12, as stated, fails for `size = 46341`, where `size*size` exceeds
`INT_MAX`: for the in-range cell `(46340, 46340)` the index `y + x*size` that
`advance_state` computes is `-2147479016`, outside `[0, size*size)`, and on
buffers of `size*size` cells the call has no result (the out-of-bounds branch
is taken). -/
theorem boundary_safety_counterexample :
    (1 : Int) ≤ 46341 ∧ (0 : Int) ≤ 46340 ∧ (46340 : Int) < 46341 ∧
    (-2147479016 : Int) ∈ touched_indices 46340 46340 46341 ∧
    ¬ ((0 : Int) ≤ -2147479016) ∧
    (large_grid 0).length = ((46341 : Int) * 46341).toNat ∧
    advance_state (large_grid 0) (large_grid 5) demo_settings 46340 46340 46341 max_rng
      = none := by
  refine ⟨by decide, by decide, by decide, ?_, by decide, large_grid_length 0,
    advance_state_large _ _ _ _⟩
  unfold touched_indices
  rw [large_index_negative]
  simp

/-- C12, amended.  Boundary safety, for `size*size ≤ INT_MAX`: for an in-range
cell `(x, y)` of a grid of side `size` (so `size ≥ 1`), every index
`advance_state` computes to read from `current` or write to `next` lies in
`[0, size*size)`; on buffers of `size*size` cells it never takes the
out-of-bounds branch: it returns, having written `next[y + x*size]` only; and
its result is fixed by the cells of `current` at those indices.  For a 2×2
grid and the corner `(0, 0)` these are the cells `(0,0)`, `(0,1)` and `(1,0)`
(indices 0, 1, 2): two grids that agree there give the same result whatever
the cell `(1,1)` (index 3) holds. -/
theorem boundary_safety (s : settings) (current next : List Int) (x y size : Int) (rng : Rng)
    (hx0 : 0 ≤ x) (hx : x < size) (hy0 : 0 ≤ y) (hy : y < size)
    (hb : size * size ≤ INT_MAX)
    (hcl : current.length = (size * size).toNat) (hnl : next.length = (size * size).toNat) :
    (∀ i ∈ touched_indices x y size, 0 ≤ i ∧ i < size * size) ∧
    (∃ v r, advance_state current next s x y size rng
      = some (next.set (y + x * size).toNat v, r)) ∧
    (∀ other : List Int, (∀ i ∈ touched_indices x y size, peek other i = peek current i) →
      advance_state other next s x y size rng = advance_state current next s x y size rng) ∧
    (∀ (g g' nxt : List Int) (a b c d d' : Int), g = [a, b, c, d] → g' = [a, b, c, d'] →
      advance_state g nxt s 0 0 2 rng = advance_state g' nxt s 0 0 2 rng) := by
  refine ⟨touched_indices_bounds x y size hx0 hx hy0 hy hb, ?_, ?_, ?_⟩
  · obtain ⟨p, hp⟩ := next_value_isSome current s x y size rng hcl hb hx0 hx hy0 hy
    exact ⟨p.1, p.2, by
      rw [advance_state_in_range current next s x y size rng hx0 hx hy0 hy hb hnl, hp]; rfl⟩
  · intro other hsame
    exact advance_state_congr current other next s x y size rng hsame
  · intro g g' nxt a b c d d' hg hg'
    subst hg hg'
    apply advance_state_congr
    intro i hi
    rw [touched_indices_exact 0 0 2 (by decide) (by decide) (by decide) (by decide)
      (by decide)] at hi
    have hi' : i = 0 ∨ i = 2 ∨ i = 1 := by
      simpa using hi
    rcases hi' with rfl | rfl | rfl <;> rfl

/-- Instance of `boundary_safety`: the corner `(0, 0)` of a 2×2 grid whose
cell `(1, 1)` is infected; the call returns and writes Healthy without a
draw. -/
theorem boundary_safety_witness :
    ∃ v r, advance_state [0, 0, 0, 5] (malloc 4) demo_settings 0 0 2 zero_rng
      = some ((malloc 4).set (0 + 0 * 2 : Int).toNat v, r) :=
  (boundary_safety demo_settings [0, 0, 0, 5] (malloc 4) 0 0 2 zero_rng (by decide) (by decide)
    (by decide) (by decide) (by decide) (by decide) (by decide)).2.1

/-- The out-of-bounds branch exists: on a buffer that is too short the
embedding of `advance_state` has no result. -/
theorem advance_state_outside_example :
    advance_state [0, 0, 0] (malloc 4) demo_settings 1 1 2 zero_rng = none := by
  rfl

/-- The range of the draw of `chance`: for every value `r ≤ RAND_MAX` of
`rand()` the quotient `r / RAND_MAX` lies in the closed interval `[0, 1]`, and
it is below 1 exactly when `r < RAND_MAX`; the double that `chance` compares,
the rounded quotient, is below 1 exactly then, too. -/
theorem draw_range (r : Nat) (hr : r ≤ RAND_MAX) :
    0 ≤ (r : ℚ) / (RAND_MAX : ℚ) ∧ (r : ℚ) / (RAND_MAX : ℚ) ≤ 1 ∧
      ((r : ℚ) / (RAND_MAX : ℚ) < 1 ↔ r < RAND_MAX) ∧
      0 ≤ uniform_draw r ∧ (uniform_draw r < 1 ↔ r < RAND_MAX) := by
  have hpos : (0 : ℚ) < (RAND_MAX : ℚ) := by
    have : 0 < RAND_MAX := by decide
    exact_mod_cast this
  refine ⟨by positivity, ?_, ?_, uniform_draw_nonneg r, ?_⟩
  · rw [div_le_one hpos]
    exact_mod_cast hr
  · rw [div_lt_one hpos]
    exact_mod_cast Iff.rfl
  · constructor
    · intro h
      by_contra hnot
      have heq : r = RAND_MAX := by omega
      rw [heq, uniform_draw_max] at h
      exact lt_irrefl 1 h
    · exact uniform_draw_lt_one r

/-- C13. The draw of `chance` at `rand() = RAND_MAX`: the quotient
`RAND_MAX / RAND_MAX` is 1, outside `[0, 1)`, and `chance(1.0)` is false,
having consumed one draw. -/
theorem chance_at_rand_max :
    (((rand max_rng).1 : Nat) : ℚ) / (RAND_MAX : ℚ) = 1 ∧
    ¬ ((((rand max_rng).1 : Nat) : ℚ) / (RAND_MAX : ℚ) < 1) ∧
    chance 1 max_rng = (false, max_rng.skip 1) := by
  have hq : (((rand max_rng).1 : Nat) : ℚ) / (RAND_MAX : ℚ) = 1 := by
    have hpos : (0 : ℚ) < (RAND_MAX : ℚ) := by
      have : 0 < RAND_MAX := by decide
      exact_mod_cast this
    show ((RAND_MAX : Nat) : ℚ) / (RAND_MAX : ℚ) = 1
    exact div_self (ne_of_gt hpos)
  exact ⟨hq, by rw [hq]; exact lt_irrefl 1, chance_one_max max_rng rfl⟩

theorem countP_le_of_pointwise (p q : Int → Bool) :
    ∀ (l1 l2 : List Int), l1.length = l2.length →
      (∀ (k : Nat) (a b : Int), l1[k]? = some a → l2[k]? = some b → p a = true → q b = true) →
      l1.countP p ≤ l2.countP q := by
  intro l1
  induction l1 with
  | nil => intro l2 _ _; simp
  | cons a t ih =>
    intro l2 hl h
    cases l2 with
    | nil => simp at hl
    | cons b t2 =>
      have ht := ih t2 (by simpa using hl)
        (fun k x y hx hy => h (k + 1) x y (by simpa using hx) (by simpa using hy))
      have h0 := h 0 a b (by simp) (by simp)
      rw [List.countP_cons, List.countP_cons]
      by_cases hp : p a = true
      · rw [if_pos hp, if_pos (h0 hp)]
        omega
      · rw [if_neg hp]
        split_ifs <;> omega


theorem next_value_monotone (current : List Int) (s : settings) (x y size : Int) (rng : Rng)
    (hm : 1 ≤ s.max_infected_value) (hmax : s.max_infected_value ≤ INT_MAX) (c : Int)
    (hc : peek current (int_add y (int_mul x size)) = some c)
    (hv : valid_cell s.max_infected_value c) (p : Int × Rng)
    (hp : next_value current s x y size rng = some p) :
    (c ≠ 0 → p.1 ≠ 0) ∧ (c = CURED_STATE → p.1 = CURED_STATE) ∧
      (c = DEAD_STATE → p.1 = DEAD_STATE) := by
  rw [valid_cell_iff] at hv
  simp only [next_value, hc] at hp
  by_cases h1 : c = CURED_STATE ∨ c = DEAD_STATE
  · rw [if_pos h1] at hp
    cases hp
    refine ⟨fun h => h, fun h => h, fun h => h⟩
  · rw [if_neg h1] at hp
    have hnc : c ≠ CURED_STATE := fun h => h1 (Or.inl h)
    have hnd : c ≠ DEAD_STATE := fun h => h1 (Or.inr h)
    refine ⟨?_, fun h => absurd h hnc, fun h => absurd h hnd⟩
    intro hnz
    rw [if_pos hnz] at hp
    have hrange : 1 ≤ c ∧ c ≤ s.max_infected_value := by
      rcases hv with h | h | h | h
      · exact absurd h hnz
      · exact h
      · exact absurd h hnc
      · exact absurd h hnd
    have hadd : int_add c 1 ≠ 0 := by
      unfold int_add
      rw [wrap_int_def]
      unfold INT_MAX at hmax
      omega
    split_ifs at hp <;> cases hp <;> simp only [CURED_STATE, DEAD_STATE]
    · omega
    · omega
    · omega
    · exact hadd

/-- C16, as stated, fails for a grid whose number of cells exceeds `INT_MAX`:
on the grid of side 46341 whose cells are all Healthy, which satisfies the
state invariant, `simulation_step` has no result and neither has
`tally_state`, because the index `y + x*size` leaves the range of `int`; no
counts exist to compare. -/
theorem monotone_tallies_counterexample :
    (1 : Int) ≤ large_settings.max_infected_value ∧
    valid_grid large_settings.max_infected_value (large_grid 0) ∧
    (large_grid 0).length = (large_settings.simulation_grid_dimension
      * large_settings.simulation_grid_dimension).toNat ∧
    simulation_step large_settings (large_grid 0) zero_rng = none ∧
    tally_state (large_grid 0) large_settings.simulation_grid_dimension = none :=
  ⟨by decide, large_grid_valid _ _ (by decide), large_grid_length 0,
    simulation_step_large _ _ _ rfl, tally_state_large _⟩

/-- C16, amended.  Monotone tallies, for `dim*dim ≤ INT_MAX`: with
`1 ≤ max_infected_value ≤ INT_MAX`, on a grid that satisfies the state
invariant and for every generator, a cell that is not Healthy is not Healthy
after `simulation_step`, and a Cured or Dead cell keeps its value; so across
the step the healthy count of `tally_state` does not increase and the cured
and dead counts do not decrease.  With `max_infected_value = 0`, which the
option parser accepts for `-m 0`, this fails: on a 1×1 grid an Infected cell
whose two draws fail is set to 0 and is Healthy after the step. -/
theorem monotone_tallies (s : settings) (state : List Int) (rng : Rng)
    (hdim : 0 ≤ s.simulation_grid_dimension)
    (hb : s.simulation_grid_dimension * s.simulation_grid_dimension ≤ INT_MAX)
    (hm : 1 ≤ s.max_infected_value) (hmax : s.max_infected_value ≤ INT_MAX)
    (hlen : state.length = (s.simulation_grid_dimension * s.simulation_grid_dimension).toNat)
    (hvalid : valid_grid s.max_infected_value state) :
    (∃ g r t t', simulation_step s state rng = some (g, r) ∧ g.length = state.length ∧
      (∀ (k : Nat) (c v : Int), state[k]? = some c → g[k]? = some v →
        (c ≠ 0 → v ≠ 0) ∧ (c = CURED_STATE → v = CURED_STATE) ∧
          (c = DEAD_STATE → v = DEAD_STATE)) ∧
      tally_state state s.simulation_grid_dimension = some t ∧
      tally_state g s.simulation_grid_dimension = some t' ∧
      t'.healthy ≤ t.healthy ∧ t.cured ≤ t'.cured ∧ t.dead ≤ t'.dead) ∧
    (parse_opt opt_key.immunity arg_0 default_settings
        = Except.ok (0, ⟨100, 0, 1 / 100, 1 / 10, 1, 4096, false⟩) ∧
      simulation_step immunity_zero_settings [1] zero_rng = some ([0], zero_rng.skip 2) ∧
      tally_state [1] 1 = some ⟨0, 1, 0, 0⟩ ∧ tally_state [0] 1 = some ⟨1, 0, 0, 0⟩) := by
  constructor
  · obtain ⟨g, r, hg, hgl, hcells⟩ := simulation_step_pointwise s state rng hdim hb hlen
      (fun k v => ∀ c, state[k]? = some c →
        (c ≠ 0 → v ≠ 0) ∧ (c = CURED_STATE → v = CURED_STATE) ∧
          (c = DEAD_STATE → v = DEAD_STATE))
      (by
        intro i j r0 p hi hj hp c hc
        exact next_value_monotone state s i j _ r0 hm hmax c
          (by rw [next_value_cell s state hdim hb i j hi hj]; exact hc)
          (hvalid c (List.getElem?_mem hc)) p hp)
    have hpt : ∀ (k : Nat) (c v : Int), state[k]? = some c → g[k]? = some v →
        (c ≠ 0 → v ≠ 0) ∧ (c = CURED_STATE → v = CURED_STATE) ∧
          (c = DEAD_STATE → v = DEAD_STATE) :=
      fun k c v hc hv => hcells k v hv c hc
    refine ⟨g, r, tally_of state, tally_of g, hg, hgl, hpt,
      tally_state_eq state _ hdim hb hlen, tally_state_eq g _ hdim hb (hgl.trans hlen),
      ?_, ?_, ?_⟩
    · have := countP_le_of_pointwise (fun c => decide (c = 0)) (fun c => decide (c = 0)) g state
        hgl (by
          intro k a b ha hb h0
          simp only [decide_eq_true_eq] at h0 ⊢
          by_contra hne
          exact (hpt k b a hb ha).1 hne h0)
      show ((g.countP (fun c => decide (c = 0)) : Nat) : Int)
        ≤ ((state.countP (fun c => decide (c = 0)) : Nat) : Int)
      exact_mod_cast this
    · have := countP_le_of_pointwise (fun c => decide (c = CURED_STATE))
        (fun c => decide (c = CURED_STATE)) state g hgl.symm (by
          intro k a b ha hb h0
          simp only [decide_eq_true_eq] at h0 ⊢
          exact (hpt k a b ha hb).2.1 h0)
      show ((state.countP (fun c => decide (c = CURED_STATE)) : Nat) : Int)
        ≤ ((g.countP (fun c => decide (c = CURED_STATE)) : Nat) : Int)
      exact_mod_cast this
    · have := countP_le_of_pointwise (fun c => decide (c = DEAD_STATE))
        (fun c => decide (c = DEAD_STATE)) state g hgl.symm (by
          intro k a b ha hb h0
          simp only [decide_eq_true_eq] at h0 ⊢
          exact (hpt k a b ha hb).2.2 h0)
      show ((state.countP (fun c => decide (c = DEAD_STATE)) : Nat) : Int)
        ≤ ((g.countP (fun c => decide (c = DEAD_STATE)) : Nat) : Int)
      exact_mod_cast this
  · refine ⟨?_, ?_, by decide, by decide⟩
    · norm_num [parse_opt, parse_int, arg_0, default_settings, INT_MAX, INT_MIN]
    · have hc0 : ∀ k, chance 0 (zero_rng.skip k) = (false, zero_rng.skip (k + 1)) := by
        intro k
        rw [chance_zero (zero_rng.skip k), skip_skip]
      have hr : zero_rng = zero_rng.skip 0 := rfl
      conv_lhs => rw [hr]
      have h1 : Int.toNat 1 = 1 := rfl
      have h2 : ((1 : Int) * 1).toNat = 1 := rfl
      simp only [simulation_step, immunity_zero_settings, malloc]
      rw [h1, h2]
      simp only [List.range, List.range.loop, List.foldlM_cons, List.foldlM_nil, List.replicate]
      simp [advance_state, peek, poke, CURED_STATE, DEAD_STATE, hc0, int_add, int_mul,
        wrap_int_def]

/-- Instance of `monotone_tallies`: the seeded 3×3 grid. -/
theorem monotone_tallies_witness :
    ∃ g r t t', simulation_step demo_settings [0, 0, 0, 0, 1, 0, 0, 0, 0] zero_rng = some (g, r) ∧
      tally_state [0, 0, 0, 0, 1, 0, 0, 0, 0] demo_settings.simulation_grid_dimension = some t ∧
      tally_state g demo_settings.simulation_grid_dimension = some t' ∧
      t'.healthy ≤ t.healthy ∧ t.cured ≤ t'.cured ∧ t.dead ≤ t'.dead := by
  obtain ⟨g, r, t, t', h1, _, _, h2, h3, h4, h5, h6⟩ :=
    (monotone_tallies demo_settings [0, 0, 0, 0, 1, 0, 0, 0, 0] zero_rng (by decide) (by decide)
      (by decide) (by decide) (by decide) (by decide)).1
  exact ⟨g, r, t, t', h1, h2, h3, h4, h5, h6⟩

end Epidemics
